import Mathlib

/-!
Verification of `load_useeio.py` (USEEIO xlsx → Supabase ETL).

This file shallowly embeds the pure data transformations and the
store-facing control flow of the script and proves / refutes the
specification claims about them.

Modelling conventions:
* A spreadsheet cell is observed by the script only through `pd.isna`,
  `str(...)` and `float(...)`.  We therefore model a cell as either
  `na` (a missing/NaN cell) or `val s f`, where `s` is the cell's
  Python string rendering and `f` is the result of `float(...)` on it
  (`none` when the conversion raises `ValueError`/`TypeError`).
* Column labels are likewise observed through `str(...)` and
  `float(...)` and are modelled by the same pair of observations.
* pandas deduplicates column labels on `read_excel`, so label-based
  row access (`row[col]`) is positional; we align the cell list of a
  row positionally with the column-label list.
* Python `dict` built by successive insertion: a later binding for the
  same key overwrites an earlier one, hence lookups find the last
  binding.
* Supabase/PostgREST errors are modelled by their error-code string;
  `"PGRST205"` is the distinguished "table not found" code.
-/

/-- Characters stripped by Python `str.strip()` (ASCII whitespace). -/
def pySpaceChar (c : Char) : Bool :=
  (c == ' ') || (c == '\t') || (c == '\n') || (c == '\r') || (c == '\x0b') || (c == '\x0c')

/-- Drop leading whitespace (one side of Python `str.strip()`). -/
def stripFront (l : List Char) : List Char :=
  l.dropWhile pySpaceChar

/-- Drop trailing whitespace (the other side of Python `str.strip()`). -/
def stripBack (l : List Char) : List Char :=
  (l.reverse.dropWhile pySpaceChar).reverse

/-- Python `str.strip()` on a character list. -/
def pyStrip (l : List Char) : List Char :=
  stripBack (stripFront l)

/-- `str.strip()` packaged on `String`. -/
def pyStripS (s : String) : String :=
  String.mk (pyStrip s.toList)

/-- Split a character list at the LAST occurrence of `sep`
(Python `s.rsplit(sep, 1)`); `none` when `sep` does not occur. -/
def rsplitLast (sep : Char) : List Char → Option (List Char × List Char)
  | [] => none
  | c :: rest =>
    match rsplitLast sep rest with
    | some (a, b) => some (c :: a, b)
    | none => if c = sep then some ([], rest) else none

/-- `get_sector_region` from `load_useeio.py`:
`s = (s or "").strip()`; if `"/" in s`, `code, region = s.rsplit("/", 1)`
and both parts are stripped; otherwise `(s, "US")`. -/
def get_sector_region (s : String) : String × String :=
  let t := pyStrip s.toList
  match rsplitLast '/' t with
  | some (code, region) => (String.mk (pyStrip code), String.mk (pyStrip region))
  | none => (String.mk t, "US")

/-- A spreadsheet cell as observed by the script: missing (`na`) or a
value with its `str(...)` rendering and its `float(...)` result. -/
inductive Cell where
  | na : Cell
  | val (s : String) (f : Option ℚ) : Cell
deriving DecidableEq, Repr

/-- A column label, observed through `str(...)` and `float(...)`. -/
structure ColLabel where
  s : String
  f : Option ℚ
deriving DecidableEq, Repr

/-- Python `int(...)` on a float: truncation toward zero. -/
def pyInt (q : ℚ) : Int :=
  q.num.tdiv (q.den : Int)

/-- Python `dict.get` for an `int → str` dict built by successive
insertion: the LAST binding of a key wins. -/
def dictGet (d : List (Int × String)) (k : Int) : Option String :=
  match d with
  | [] => none
  | (k', c) :: rest =>
    match dictGet rest k with
    | some r => some r
    | none => if k' = k then some c else none

section StripLemmas

theorem rsplitLast_eq_none {sep : Char} {l : List Char} (h : sep ∉ l) :
    rsplitLast sep l = none := by
  induction l with
  | nil => rfl
  | cons c rest ih =>
    have hc : ¬ c = sep := fun hcs => h (hcs ▸ List.mem_cons_self c rest)
    have hr : sep ∉ rest := fun hm => h (List.mem_cons_of_mem c hm)
    simp [rsplitLast, ih hr, hc]

theorem rsplitLast_append {sep : Char} (a b : List Char) (h : sep ∉ b) :
    rsplitLast sep (a ++ sep :: b) = some (a, b) := by
  induction a with
  | nil => simp [rsplitLast, rsplitLast_eq_none h]
  | cons c rest ih => simp [rsplitLast, ih]

theorem dropWhile_append_cons {p : Char → Bool} (a b : List Char) {c : Char}
    (hc : ¬ p c) :
    List.dropWhile p (a ++ c :: b) = List.dropWhile p a ++ c :: b := by
  induction a with
  | nil => simp [List.dropWhile, hc]
  | cons x rest ih =>
    by_cases hx : p x
    · simpa [List.dropWhile, hx] using ih
    · simp [List.dropWhile, hx]

theorem dropWhile_dropWhile (p : Char → Bool) (l : List Char) :
    List.dropWhile p (List.dropWhile p l) = List.dropWhile p l := by
  induction l with
  | nil => rfl
  | cons c rest ih =>
    by_cases hc : p c
    · simpa [List.dropWhile, hc] using ih
    · simp [List.dropWhile, hc]

theorem stripFront_stripFront (l : List Char) :
    stripFront (stripFront l) = stripFront l :=
  dropWhile_dropWhile pySpaceChar l

theorem stripBack_stripBack (l : List Char) :
    stripBack (stripBack l) = stripBack l := by
  unfold stripBack
  simp [dropWhile_dropWhile]

theorem stripBack_cons_neg {c : Char} (hc : ¬ pySpaceChar c) (rest : List Char) :
    stripBack (c :: rest) = c :: stripBack rest := by
  unfold stripBack
  rw [show (c :: rest).reverse = rest.reverse ++ [c] by simp,
    List.dropWhile_append]
  by_cases h : (rest.reverse.dropWhile pySpaceChar).isEmpty
  · rw [if_pos h]
    rw [List.isEmpty_iff] at h
    simp [h, List.dropWhile, hc]
  · rw [if_neg h]
    simp

theorem stripBack_cons_pos {c : Char} (hc : pySpaceChar c) (rest : List Char) :
    stripBack (c :: rest) = if (rest.reverse.dropWhile pySpaceChar).isEmpty
      then [] else c :: stripBack rest := by
  unfold stripBack
  rw [show (c :: rest).reverse = rest.reverse ++ [c] by simp,
    List.dropWhile_append]
  by_cases h : (rest.reverse.dropWhile pySpaceChar).isEmpty
  · rw [if_pos h, if_pos h]
    simp [List.dropWhile, hc]
  · rw [if_neg h, if_neg h]
    simp

/-- Dropping trailing and leading whitespace commute. -/
theorem stripFront_stripBack (l : List Char) :
    stripFront (stripBack l) = stripBack (stripFront l) := by
  induction l with
  | nil => rfl
  | cons c rest ih =>
    by_cases hc : pySpaceChar c
    · rw [stripBack_cons_pos hc]
      by_cases h : (rest.reverse.dropWhile pySpaceChar).isEmpty
      · rw [if_pos h]
        have hrest : stripBack rest = [] := by
          unfold stripBack
          rw [List.isEmpty_iff] at h
          simp [h]
        have : stripFront (c :: rest) = stripFront rest := by
          simp [stripFront, List.dropWhile, hc]
        rw [this, ← ih, hrest]
      · rw [if_neg h]
        have h1 : stripFront (c :: stripBack rest) = stripFront (stripBack rest) := by
          simp [stripFront, List.dropWhile, hc]
        have h2 : stripFront (c :: rest) = stripFront rest := by
          simp [stripFront, List.dropWhile, hc]
        rw [h1, ih, h2]
    · rw [stripBack_cons_neg hc]
      have h1 : stripFront (c :: stripBack rest) = c :: stripBack rest := by
        simp [stripFront, List.dropWhile, hc]
      have h2 : stripFront (c :: rest) = c :: rest := by
        simp [stripFront, List.dropWhile, hc]
      rw [h1, h2, stripBack_cons_neg hc]

theorem pyStrip_stripFront (l : List Char) :
    pyStrip (stripFront l) = pyStrip l := by
  unfold pyStrip
  rw [stripFront_stripFront]

theorem pyStrip_stripBack (l : List Char) :
    pyStrip (stripBack l) = pyStrip l := by
  unfold pyStrip
  rw [stripFront_stripBack, stripBack_stripBack, ← stripFront_stripBack]

theorem mem_of_mem_stripBack {c : Char} {l : List Char}
    (h : c ∈ stripBack l) : c ∈ l := by
  unfold stripBack at h
  rw [List.mem_reverse] at h
  have := List.dropWhile_sublist (p := pySpaceChar) (l := l.reverse)
  have hrev : c ∈ l.reverse := this.mem h
  simpa using hrev

theorem stripBack_append_cons (x b : List Char) {c : Char}
    (hc : ¬ pySpaceChar c) :
    stripBack (x ++ c :: b) = x ++ c :: stripBack b := by
  unfold stripBack
  rw [show (x ++ c :: b).reverse = b.reverse ++ c :: x.reverse by simp,
    dropWhile_append_cons _ _ hc]
  simp

theorem stripFront_append_cons (a b : List Char) {c : Char}
    (hc : ¬ pySpaceChar c) :
    stripFront (a ++ c :: b) = stripFront a ++ c :: b :=
  dropWhile_append_cons a b hc

/-- A stripped whole equals the two independently side-stripped halves
around a non-space separator. -/
theorem pyStrip_append_sep (a b : List Char) {c : Char} (hc : ¬ pySpaceChar c) :
    pyStrip (a ++ c :: b) = stripFront a ++ c :: stripBack b := by
  unfold pyStrip
  rw [stripFront_append_cons a b hc, stripBack_append_cons _ _ hc]

end StripLemmas

theorem mem_of_mem_pyStrip {c : Char} {l : List Char}
    (h : c ∈ pyStrip l) : c ∈ l := by
  unfold pyStrip stripFront at h
  exact (List.dropWhile_sublist pySpaceChar).mem (mem_of_mem_stripBack h)

/-- C6: `KeyParser.parse` (`get_sector_region`) always succeeds (it is a
pure total function): it trims its input; on a trimmed input containing
`/` it splits at the last `/` and trims both parts; on an input without
`/` it returns the trimmed input paired with the default region `"US"`;
the empty string yields `("", "US")`. -/
theorem C6_keyparser_spec (a b t : List Char)
    (hb : ('/' : Char) ∉ b) (ht : ('/' : Char) ∉ t) :
    get_sector_region (String.mk (a ++ '/' :: b)) =
      (String.mk (pyStrip a), String.mk (pyStrip b)) ∧
    get_sector_region (String.mk t) = (String.mk (pyStrip t), "US") ∧
    get_sector_region "" = ("", "US") := by
  refine ⟨?_, ?_, by decide⟩
  · have hsep : ¬ pySpaceChar '/' := by decide
    have hsb : ('/' : Char) ∉ stripBack b := fun hm => hb (mem_of_mem_stripBack hm)
    unfold get_sector_region
    simp only [show (String.mk (a ++ '/' :: b)).toList = a ++ '/' :: b from rfl,
      pyStrip_append_sep a b hsep, rsplitLast_append _ _ hsb]
    rw [pyStrip_stripFront a, pyStrip_stripBack b]
  · have hpt : ('/' : Char) ∉ pyStrip t := fun hm => ht (mem_of_mem_pyStrip hm)
    unfold get_sector_region
    simp only [show (String.mk t).toList = t from rfl, rsplitLast_eq_none hpt]

theorem C6_keyparser_witness :
    (('/' : Char) ∉ (['U', 'S', ' '] : List Char)) ∧
    (('/' : Char) ∉ ([' ', 'a', 'b'] : List Char)) ∧
    (get_sector_region (String.mk ((['1', '1', '1', '1', 'A', '0'] : List Char)
        ++ '/' :: ['U', 'S', ' '])) =
      (String.mk (pyStrip ['1', '1', '1', '1', 'A', '0']),
       String.mk (pyStrip ['U', 'S', ' '])) ∧
     get_sector_region (String.mk [' ', 'a', 'b']) =
       (String.mk (pyStrip [' ', 'a', 'b']), "US") ∧
     get_sector_region "" = ("", "US")) ∧
    get_sector_region " 1111A0 / US " = ("1111A0", "US") :=
  ⟨by decide, by decide,
   C6_keyparser_spec ['1', '1', '1', '1', 'A', '0'] ['U', 'S', ' ']
     [' ', 'a', 'b'] (by decide) (by decide),
   by decide⟩

/-! ## Wide tables and melted record shapes -/

/-- One data row of a wide sheet: the first-column cell (`head`) and the
value cells, positionally aligned with the value-column labels. -/
structure DataRow where
  head : Cell
  cells : List Cell
deriving DecidableEq, Repr

/-- A wide sheet read with `header=0`: the value-column labels (all
columns but the first) and the data rows. -/
structure Table where
  cols : List ColLabel
  rows : List DataRow
deriving DecidableEq, Repr

/-- A melted `rho` record. -/
structure RhoRec where
  model_version : String
  sector_code : String
  region : String
  year : Int
  rho_value : ℚ
deriving DecidableEq, Repr

/-- A melted impact record (`M` / `M_d`). -/
structure ImpactRec where
  model_version : String
  impact_type : String
  indicator_code : String
  sector_code : String
  region : String
  value : ℚ
deriving DecidableEq, Repr

/-- A melted characterization (`C`) record. -/
structure CRec where
  model_version : String
  indicator_code : String
  flow : String
  value : ℚ
deriving DecidableEq, Repr

/-! ## `load_rho_long`

The year-keyed melt.  For each row: skip if the first-column cell is
NaN, else split it with `get_sector_region`; for each further column:
`year = int(float(year_col))` with conversion failure skipping the
column, `continue` on a NaN cell, and — crucially — a bare `float(val)`
with NO try/except, so a non-null cell that fails the float conversion
raises `ValueError` and aborts the whole melt. -/

/-- Melt the value cells of one rho row. -/
def rhoCells (v code region : String) :
    List (ColLabel × Cell) → Except String (List RhoRec)
  | [] => .ok []
  | (col, cell) :: rest =>
    match col.f with
    | none => rhoCells v code region rest
    | some qy =>
      match cell with
      | .na => rhoCells v code region rest
      | .val _ f =>
        match f with
        | none => .error "ValueError"
        | some q =>
          match rhoCells v code region rest with
          | .ok recs => .ok (⟨v, code, region, pyInt qy, q⟩ :: recs)
          | .error e => .error e

/-- Melt the rows of the Rho sheet. -/
def rhoRows (v : String) (cols : List ColLabel) :
    List DataRow → Except String (List RhoRec)
  | [] => .ok []
  | r :: rs =>
    match r.head with
    | .na => rhoRows v cols rs
    | .val s _ =>
      let sr := get_sector_region s
      match rhoCells v sr.1 sr.2 (cols.zip r.cells) with
      | .error e => .error e
      | .ok recs =>
        match rhoRows v cols rs with
        | .error e => .error e
        | .ok recs2 => .ok (recs ++ recs2)

/-- `load_rho_long` from `load_useeio.py`. -/
def load_rho_long (v : String) (t : Table) : Except String (List RhoRec) :=
  rhoRows v t.cols t.rows

/-! ## `load_impact_long`

The indicator-indexed melt for `M` / `M_d`.  `df.iloc[1:]` skips the
first data row; the rest are enumerated from 0 and resolved through
`index_to_code`; unresolved rows are skipped; NaN cells and cells whose
float conversion fails are skipped (the conversion is inside
try/except here). -/

/-- Melt the value cells of one impact row with a resolved code. -/
def impactCells (v ty code : String) :
    List (ColLabel × Cell) → List ImpactRec
  | [] => []
  | (col, cell) :: rest =>
    let sr := get_sector_region col.s
    match cell with
    | .na => impactCells v ty code rest
    | .val _ f =>
      match f with
      | none => impactCells v ty code rest
      | some q => ⟨v, ty, code, sr.1, sr.2, q⟩ :: impactCells v ty code rest

/-- Melt the post-skip impact rows, enumerating from `i`. -/
def impactRows (v ty : String) (idx : List (Int × String))
    (cols : List ColLabel) : Nat → List DataRow → List ImpactRec
  | _, [] => []
  | i, r :: rs =>
    (match dictGet idx (Int.ofNat i) with
     | none => []
     | some code => impactCells v ty code (cols.zip r.cells)) ++
    impactRows v ty idx cols (i + 1) rs

/-- `load_impact_long` from `load_useeio.py`. -/
def load_impact_long (v ty : String) (idx : List (Int × String))
    (t : Table) : List ImpactRec :=
  match t.rows with
  | [] => []
  | _ :: rest => impactRows v ty idx t.cols 0 rest

/-! ## `load_c_matrix_long`

The characterization-matrix melt.  All rows are enumerated from 0 (no
row skip).  The indicator code comes from the first-column cell when it
is non-null and its stripped string is non-empty and does not look
numeric (`s.replace(".", "").replace("-", "").isdigit()`), otherwise
from `index_to_code` by position. -/

/-- Python `str.isdigit()`: non-empty and all digits. -/
def pyIsDigit (l : List Char) : Bool :=
  !l.isEmpty && l.all Char.isDigit

/-- `s.replace(".", "").replace("-", "")`. -/
def removeDotsDashes (l : List Char) : List Char :=
  l.filter (fun c => !(c == '.') && !(c == '-'))

/-- Indicator-code choice for one C-matrix row at position `i`
(`s = str(ind_val).strip()`, used as the code when non-empty and not
numeric-looking, else positional lookup). -/
def chooseCode (idx : List (Int × String)) (i : Nat) : Cell → Option String
  | .na => dictGet idx (Int.ofNat i)
  | .val s _ =>
    if !(pyStrip s.toList).isEmpty && !pyIsDigit (removeDotsDashes (pyStrip s.toList))
    then some (String.mk (pyStrip s.toList))
    else dictGet idx (Int.ofNat i)

/-- Melt the value cells of one C-matrix row with a resolved code. -/
def cCells (v code : String) : List (ColLabel × Cell) → List CRec
  | [] => []
  | (col, cell) :: rest =>
    match cell with
    | .na => cCells v code rest
    | .val _ f =>
      match f with
      | none => cCells v code rest
      | some q => ⟨v, code, String.mk (pyStrip col.s.toList), q⟩ :: cCells v code rest

/-- Melt the C-matrix rows, enumerating from `i` (no initial skip). -/
def cRows (v : String) (idx : List (Int × String)) (cols : List ColLabel) :
    Nat → List DataRow → List CRec
  | _, [] => []
  | i, r :: rs =>
    (match chooseCode idx i r.head with
     | none => []
     | some code => cCells v code (cols.zip r.cells)) ++
    cRows v idx cols (i + 1) rs

/-- `load_c_matrix_long` from `load_useeio.py`. -/
def load_c_matrix_long (v : String) (idx : List (Int × String))
    (t : Table) : List CRec :=
  cRows v idx t.cols 0 t.rows

/-! ## Cell access and cell replacement, for the malformed-cell claims -/

/-- The value cell of `t` at row `i`, value column `j`. -/
def cellAt (t : Table) (i j : Nat) : Option Cell :=
  (t.rows.get? i).bind (fun r => r.cells.get? j)

/-- Replace the value cell at row `i`, value column `j` by `na`. -/
def rowsSetNa : List DataRow → Nat → Nat → List DataRow
  | [], _, _ => []
  | r :: rs, 0, j => ⟨r.head, r.cells.set j .na⟩ :: rs
  | r :: rs, i + 1, j => r :: rowsSetNa rs i j

/-- The table with the value cell at `(i, j)` replaced by `na`. -/
def tableSetNa (t : Table) (i j : Nat) : Table :=
  ⟨t.cols, rowsSetNa t.rows i j⟩

theorem impactCells_zip_set_na (v ty code : String) :
    ∀ (cells : List Cell) (cols : List ColLabel) (j : Nat) (s : String),
    cells.get? j = some (.val s none) →
    impactCells v ty code (cols.zip (cells.set j .na)) =
      impactCells v ty code (cols.zip cells)
  | [], _, j, _, h => by simp at h
  | c0 :: rest, cols, 0, s, h => by
    have hc : c0 = .val s none := by simpa using h
    subst hc
    cases cols with
    | nil => rfl
    | cons col cs => simp [impactCells]
  | c0 :: rest, cols, j + 1, s, h => by
    have hr : rest.get? j = some (.val s none) := by simpa using h
    cases cols with
    | nil => rfl
    | cons col cs =>
      have ih := impactCells_zip_set_na v ty code rest cs j s hr
      cases c0 with
      | na => simpa [impactCells] using ih
      | val s' f' =>
        cases f' with
        | none => simpa [impactCells] using ih
        | some q => simpa [impactCells] using ih

theorem cCells_zip_set_na (v code : String) :
    ∀ (cells : List Cell) (cols : List ColLabel) (j : Nat) (s : String),
    cells.get? j = some (.val s none) →
    cCells v code (cols.zip (cells.set j .na)) = cCells v code (cols.zip cells)
  | [], _, j, _, h => by simp at h
  | c0 :: rest, cols, 0, s, h => by
    have hc : c0 = .val s none := by simpa using h
    subst hc
    cases cols with
    | nil => rfl
    | cons col cs => simp [cCells]
  | c0 :: rest, cols, j + 1, s, h => by
    have hr : rest.get? j = some (.val s none) := by simpa using h
    cases cols with
    | nil => rfl
    | cons col cs =>
      have ih := cCells_zip_set_na v code rest cs j s hr
      cases c0 with
      | na => simpa [cCells] using ih
      | val s' f' =>
        cases f' with
        | none => simpa [cCells] using ih
        | some q => simpa [cCells] using ih

theorem impactRows_rowsSetNa (v ty : String) (idx : List (Int × String))
    (cols : List ColLabel) :
    ∀ (rows : List DataRow) (i j n : Nat) (s : String),
    (rows.get? i).bind (fun r => r.cells.get? j) = some (.val s none) →
    impactRows v ty idx cols n (rowsSetNa rows i j) =
      impactRows v ty idx cols n rows
  | [], i, _, _, _, h => by simp at h
  | r :: rs, 0, j, n, s, h => by
    have hc : r.cells.get? j = some (.val s none) := by simpa using h
    simp only [rowsSetNa, impactRows]
    cases hd : dictGet idx (Int.ofNat n) with
    | none => simp [hd]
    | some code => simp [hd, impactCells_zip_set_na v ty code r.cells cols j s hc]
  | r :: rs, i + 1, j, n, s, h => by
    have hr : (rs.get? i).bind (fun r => r.cells.get? j) = some (.val s none) := by
      simpa using h
    simp only [rowsSetNa, impactRows]
    rw [impactRows_rowsSetNa v ty idx cols rs i j (n + 1) s hr]

theorem cRows_rowsSetNa (v : String) (idx : List (Int × String))
    (cols : List ColLabel) :
    ∀ (rows : List DataRow) (i j n : Nat) (s : String),
    (rows.get? i).bind (fun r => r.cells.get? j) = some (.val s none) →
    cRows v idx cols n (rowsSetNa rows i j) = cRows v idx cols n rows
  | [], i, _, _, _, h => by simp at h
  | r :: rs, 0, j, n, s, h => by
    have hc : r.cells.get? j = some (.val s none) := by simpa using h
    cases hd : chooseCode idx n r.head with
    | none => simp [rowsSetNa, cRows, hd]
    | some code =>
      simp only [rowsSetNa, cRows, hd]
      rw [cCells_zip_set_na v code r.cells cols j s hc]
  | r :: rs, i + 1, j, n, s, h => by
    have hr : (rs.get? i).bind (fun r => r.cells.get? j) = some (.val s none) := by
      simpa using h
    simp only [rowsSetNa, cRows]
    rw [cRows_rowsSetNa v idx cols rs i j (n + 1) s hr]

/-! ## Rho melt: a failed float conversion is fatal -/

theorem rhoCells_error_code (v code region : String) :
    ∀ (pairs : List (ColLabel × Cell)) (e : String),
    rhoCells v code region pairs = .error e → e = "ValueError"
  | [], e, h => by simp [rhoCells] at h
  | (c0, x0) :: rest, e, h => by
    unfold rhoCells at h
    cases hc : c0.f with
    | none =>
      rw [hc] at h
      exact rhoCells_error_code v code region rest e h
    | some qy =>
      rw [hc] at h
      cases x0 with
      | na => exact rhoCells_error_code v code region rest e h
      | val s f =>
        cases f with
        | none => simpa using h.symm
        | some q =>
          cases hr : rhoCells v code region rest with
          | ok recs => rw [hr] at h; simp at h
          | error e2 =>
            rw [hr] at h
            simp only [Except.error.injEq] at h
            exact h ▸ rhoCells_error_code v code region rest e2 hr

theorem rhoCells_error_of_bad (v code region : String) :
    ∀ (pairs : List (ColLabel × Cell)) (col : ColLabel) (cell : Cell)
    (qy : ℚ) (cs : String),
    (col, cell) ∈ pairs → col.f = some qy → cell = .val cs none →
    rhoCells v code region pairs = .error "ValueError"
  | [], _, _, _, _, hm, _, _ => by simp at hm
  | (c0, x0) :: rest, col, cell, qy, cs, hm, hcol, hcell => by
    rcases List.mem_cons.mp hm with heq | htail
    · injection heq with h1 h2
      have hc0 : c0.f = some qy := h1 ▸ hcol
      have hx0 : x0 = .val cs none := h2.symm.trans hcell
      simp [rhoCells, hc0, hx0]
    · have ih := rhoCells_error_of_bad v code region rest col cell qy cs htail hcol hcell
      unfold rhoCells
      cases hc : c0.f with
      | none => exact ih
      | some qy0 =>
        cases x0 with
        | na => exact ih
        | val s0 f0 =>
          cases f0 with
          | none => rfl
          | some q0 => rw [ih]

theorem rhoRows_error_of_bad (v : String) (cols : List ColLabel) :
    ∀ (rows : List DataRow) (r : DataRow) (hs : String) (hf : Option ℚ)
    (col : ColLabel) (cell : Cell) (qy : ℚ) (cs : String),
    r ∈ rows → r.head = .val hs hf → (col, cell) ∈ cols.zip r.cells →
    col.f = some qy → cell = .val cs none →
    rhoRows v cols rows = .error "ValueError"
  | [], _, _, _, _, _, _, _, hm, _, _, _, _ => by simp at hm
  | r0 :: rs, r, hs, hf, col, cell, qy, cs, hm, hh, hp, hcol, hcell => by
    rcases List.mem_cons.mp hm with heq | htail
    · subst heq
      have hcells := rhoCells_error_of_bad v (get_sector_region hs).1
        (get_sector_region hs).2 (cols.zip r.cells) col cell qy cs hp hcol hcell
      simp [rhoRows, hh, hcells]
    · have ih := rhoRows_error_of_bad v cols rs r hs hf col cell qy cs
        htail hh hp hcol hcell
      unfold rhoRows
      cases hhead : r0.head with
      | na => exact ih
      | val s0 f0 =>
        cases hcl : rhoCells v (get_sector_region s0).1 (get_sector_region s0).2
            (cols.zip r0.cells) with
        | error e =>
          simp only [hcl]
          rw [rhoCells_error_code v _ _ _ e hcl]
        | ok recs => simp only [hcl, ih]

theorem load_impact_long_setNa (v ty : String) (idx : List (Int × String))
    (t : Table) (i j : Nat) (s : String)
    (h : cellAt t i j = some (.val s none)) :
    load_impact_long v ty idx (tableSetNa t i j) = load_impact_long v ty idx t := by
  obtain ⟨cols, rows⟩ := t
  cases rows with
  | nil => simp [cellAt] at h
  | cons r0 rest =>
    cases i with
    | zero => rfl
    | succ i' =>
      have h' : (rest.get? i').bind (fun r => r.cells.get? j) =
          some (.val s none) := by simpa [cellAt] using h
      exact impactRows_rowsSetNa v ty idx cols rest i' j 0 s h'

/-- C4 (amended): numeric coercion is by float conversion in every
melter, but only the impact (`M`/`M_d`) and characterization (`C`)
melters treat a conversion failure as a missing value: there, replacing
a non-null unconvertible value cell by a null cell leaves the melt
output unchanged (the cell is simply skipped).  In the rho melter the
float conversion is NOT guarded, so any reachable non-null
unconvertible value cell under a year-convertible column makes
`load_rho_long` raise `ValueError`, aborting the melt. -/
theorem C4_coercion_failure_spec (v ty : String) (idx : List (Int × String))
    (t : Table) (i j : Nat) (s : String)
    (h : cellAt t i j = some (.val s none))
    (t2 : Table) (r : DataRow) (hs : String) (hf : Option ℚ)
    (col : ColLabel) (cell : Cell) (qy : ℚ) (cs : String)
    (hr : r ∈ t2.rows) (hh : r.head = .val hs hf)
    (hp : (col, cell) ∈ t2.cols.zip r.cells)
    (hcol : col.f = some qy) (hcell : cell = .val cs none) :
    load_impact_long v ty idx (tableSetNa t i j) = load_impact_long v ty idx t ∧
    load_c_matrix_long v idx (tableSetNa t i j) = load_c_matrix_long v idx t ∧
    load_rho_long v t2 = .error "ValueError" :=
  ⟨load_impact_long_setNa v ty idx t i j s h,
   cRows_rowsSetNa v idx t.cols t.rows i j 0 s h,
   rhoRows_error_of_bad v t2.cols t2.rows r hs hf col cell qy cs
     hr hh hp hcol hcell⟩

/-- A Rho-shaped table with a year column `2019` and a single row whose
value cell is the non-null, non-numeric string `"kg"`. -/
def rhoBadTable : Table :=
  ⟨[⟨"2019", some 2019⟩],
   [⟨.val "1111A0/US" none, [.val "kg" none]⟩]⟩

theorem C4_counterexample :
    load_rho_long "v2" rhoBadTable = .error "ValueError" ∧
    cellAt rhoBadTable 0 0 = some (.val "kg" none) ∧
    (rhoBadTable.cols.get? 0).map ColLabel.f = some (some 2019) :=
  ⟨rfl, rfl, rfl⟩

/-- An impact-shaped table: the unconvertible cell sits at row 1,
column 0 (and likewise reachable for the C melt). -/
def impactBadCellTable : Table :=
  ⟨[⟨"1111A0/US", none⟩],
   [⟨.val "Units" none, [.val "kg CO2e" none]⟩,
    ⟨.val "1.0" (some 1), [.val "bad" none]⟩]⟩

theorem C4_coercion_failure_witness :
    cellAt impactBadCellTable 1 0 = some (.val "bad" none) ∧
    (⟨.val "1111A0/US" none, [.val "kg" none]⟩ : DataRow) ∈ rhoBadTable.rows ∧
    (DataRow.head ⟨.val "1111A0/US" none, [.val "kg" none]⟩ = .val "1111A0/US" none) ∧
    ((⟨"2019", some 2019⟩, Cell.val "kg" none) ∈
      rhoBadTable.cols.zip (DataRow.cells ⟨.val "1111A0/US" none, [.val "kg" none]⟩)) ∧
    (ColLabel.f ⟨"2019", some 2019⟩ = some 2019) ∧
    (load_impact_long "v" "total" [(0, "GHG")] (tableSetNa impactBadCellTable 1 0) =
      load_impact_long "v" "total" [(0, "GHG")] impactBadCellTable ∧
     load_c_matrix_long "v" [(0, "GHG")] (tableSetNa impactBadCellTable 1 0) =
      load_c_matrix_long "v" [(0, "GHG")] impactBadCellTable ∧
     load_rho_long "v" rhoBadTable = .error "ValueError") :=
  ⟨rfl, by decide, rfl, by decide, rfl,
   C4_coercion_failure_spec "v" "total" [(0, "GHG")] impactBadCellTable 1 0 "bad"
     rfl rhoBadTable ⟨.val "1111A0/US" none, [.val "kg" none]⟩ "1111A0/US" none
     ⟨"2019", some 2019⟩ (Cell.val "kg" none) 2019 "kg"
     (by decide) rfl (by decide) rfl rfl⟩

/-! ## Impact melt: first-row skip and ordinal resolution -/

theorem impactRows_mem_iff (v ty : String) (idx : List (Int × String))
    (cols : List ColLabel) :
    ∀ (rows : List DataRow) (n : Nat) (rec : ImpactRec),
    rec ∈ impactRows v ty idx cols n rows ↔
      ∃ i r, rows.get? i = some r ∧ ∃ code,
        dictGet idx (Int.ofNat (n + i)) = some code ∧
        rec ∈ impactCells v ty code (cols.zip r.cells) := by
  intro rows
  induction rows with
  | nil => intro n rec; simp [impactRows]
  | cons r0 rs ih =>
    intro n rec
    constructor
    · intro hmem
      rcases List.mem_append.mp hmem with hL | hR
      · cases hd : dictGet idx (Int.ofNat n) with
        | none => rw [hd] at hL; simp at hL
        | some code =>
          rw [hd] at hL
          exact ⟨0, r0, rfl, code, hd, hL⟩
      · obtain ⟨i, r, hget, code, hcode, hcell⟩ := (ih (n + 1) rec).mp hR
        refine ⟨i + 1, r, by simpa using hget, code, ?_, hcell⟩
        rw [show n + (i + 1) = (n + 1) + i by omega]
        exact hcode
    · rintro ⟨i, r, hget, code, hcode, hcell⟩
      cases i with
      | zero =>
        have hr0 : r0 = r := by simpa using hget
        subst hr0
        apply List.mem_append_left
        rw [Nat.add_zero] at hcode
        rw [hcode]
        exact hcell
      | succ i2 =>
        apply List.mem_append_right
        refine (ih (n + 1) rec).mpr ⟨i2, r, by simpa using hget, code, ?_, hcell⟩
        rw [show (n + 1) + i2 = n + (i2 + 1) by omega]
        exact hcode

/-- C5 (amended): the impact melter (`M`/`M_d`) skips exactly the first
raw data row regardless of table size (the output does not depend on
that row, a one-row table melts to nothing), matches the remaining rows
by ordinal position starting at 0 after the skip through the
index-to-code map, and emits records only for rows whose position
resolves; the characterization melter (`C`), by contrast, does NOT skip
its first row (see the counterexample). -/
theorem C5_impact_melt_spec (v ty : String) (idx : List (Int × String))
    (cols : List ColLabel) (r0 r0' : DataRow) (rest : List DataRow) :
    load_impact_long v ty idx ⟨cols, r0 :: rest⟩ =
      load_impact_long v ty idx ⟨cols, r0' :: rest⟩ ∧
    load_impact_long v ty idx ⟨cols, [r0]⟩ = [] ∧
    load_impact_long v ty idx ⟨cols, ([] : List DataRow)⟩ = [] ∧
    (∀ rec : ImpactRec, rec ∈ load_impact_long v ty idx ⟨cols, r0 :: rest⟩ ↔
      ∃ i r, rest.get? i = some r ∧ ∃ code,
        dictGet idx (Int.ofNat i) = some code ∧
        rec ∈ impactCells v ty code (cols.zip r.cells)) := by
  refine ⟨rfl, rfl, rfl, fun rec => ?_⟩
  have h := impactRows_mem_iff v ty idx cols rest 0 rec
  simpa using h

/-- A one-row C-matrix table: its only row sits at raw position 0. -/
def cFirstRowTable : Table :=
  ⟨[⟨"CO2/air", none⟩], [⟨.val "ACID" none, [.val "2" (some 2)]⟩]⟩

theorem C5_counterexample :
    load_c_matrix_long "v1" [] cFirstRowTable =
      [⟨"v1", "ACID", "CO2/air", 2⟩] ∧
    cFirstRowTable.rows.length = 1 ∧
    load_c_matrix_long "v1" [] cFirstRowTable ≠ [] :=
  ⟨rfl, rfl, by decide⟩

/-! ## Rho melt: round trip on well-formed tables -/

/-- The aggregation key of a rho record. -/
def rhoKey (r : RhoRec) : String × String × Int :=
  (r.sector_code, r.region, r.year)

/-- Key/value view of a rho record. -/
def rhoKeyVal (r : RhoRec) : (String × String × Int) × ℚ :=
  (rhoKey r, r.rho_value)

/-- `true` iff a cell is non-null and float-convertible. -/
def isConvVal : Cell → Bool
  | .val _ (some _) => true
  | _ => false

/-- The keyed good cells of one row: one entry per non-null convertible
cell under an integer-convertible year column, in source order. -/
def rhoCellPairs (code region : String) (pairs : List (ColLabel × Cell)) :
    List ((String × String × Int) × ℚ) :=
  pairs.filterMap (fun p =>
    match p.1.f with
    | none => none
    | some qy =>
      match p.2 with
      | .na => none
      | .val _ f => f.map (fun q => ((code, region, pyInt qy), q)))

/-- The keyed good cells of a whole Rho table (rows with a null
first-column cell contribute nothing). -/
def rhoTablePairs (t : Table) : List ((String × String × Int) × ℚ) :=
  (t.rows.map (fun r =>
    match r.head with
    | .na => []
    | .val s _ =>
      rhoCellPairs (get_sector_region s).1 (get_sector_region s).2
        (t.cols.zip r.cells))).flatten

theorem rhoCells_ok_of_conv (v code region : String) :
    ∀ (pairs : List (ColLabel × Cell)),
    (∀ p ∈ pairs, p.1.f ≠ none → p.2 ≠ Cell.na → isConvVal p.2 = true) →
    ∃ recs, rhoCells v code region pairs = .ok recs ∧
      recs.map rhoKeyVal = rhoCellPairs code region pairs
  | [], _ => ⟨[], rfl, rfl⟩
  | (c0, x0) :: rest, h => by
    have hrest := rhoCells_ok_of_conv v code region rest
      (fun p hp => h p (List.mem_cons_of_mem _ hp))
    obtain ⟨recs, hok, hmap⟩ := hrest
    cases hc : c0.f with
    | none =>
      refine ⟨recs, ?_, ?_⟩
      · simp [rhoCells, hc, hok]
      · have he : rhoCellPairs code region ((c0, x0) :: rest) =
            rhoCellPairs code region rest := by
          simp [rhoCellPairs, hc]
        rw [he]
        exact hmap
    | some qy =>
      cases hx : x0 with
      | na =>
        refine ⟨recs, ?_, ?_⟩
        · simp [rhoCells, hc, hok]
        · have he : rhoCellPairs code region ((c0, Cell.na) :: rest) =
              rhoCellPairs code region rest := by
            simp [rhoCellPairs, hc]
          rw [he]
          exact hmap
      | val cs f =>
        have hcv : isConvVal x0 = true := by
          refine h (c0, x0) (List.mem_cons_self _ _) (by simp [hc]) (by simp [hx])
        rw [hx] at hcv
        cases f with
        | none => simp [isConvVal] at hcv
        | some q =>
          refine ⟨⟨v, code, region, pyInt qy, q⟩ :: recs, ?_, ?_⟩
          · simp [rhoCells, hc, hok]
          · have he : rhoCellPairs code region
                ((c0, Cell.val cs (some q)) :: rest) =
                ((code, region, pyInt qy), q) :: rhoCellPairs code region rest := by
              simp [rhoCellPairs, hc]
            rw [List.map_cons, he, hmap]
            rfl

theorem rhoRows_ok_of_conv (v : String) (cols : List ColLabel) :
    ∀ (rows : List DataRow),
    (∀ r ∈ rows, r.head ≠ Cell.na →
      ∀ p ∈ cols.zip r.cells, p.1.f ≠ none → p.2 ≠ Cell.na →
        isConvVal p.2 = true) →
    ∃ recs, rhoRows v cols rows = .ok recs ∧
      recs.map rhoKeyVal = (rows.map (fun r =>
        match r.head with
        | .na => []
        | .val s _ =>
          rhoCellPairs (get_sector_region s).1 (get_sector_region s).2
            (cols.zip r.cells))).flatten
  | [], _ => ⟨[], rfl, rfl⟩
  | r0 :: rs, h => by
    obtain ⟨recs1, hok1, hmap1⟩ := rhoRows_ok_of_conv v cols rs
      (fun r hr => h r (List.mem_cons_of_mem _ hr))
    cases hh : r0.head with
    | na =>
      refine ⟨recs1, ?_, ?_⟩
      · simp [rhoRows, hh, hok1]
      · simp [hh, hmap1]
    | val s f =>
      obtain ⟨recs0, hok0, hmap0⟩ := rhoCells_ok_of_conv v
        (get_sector_region s).1 (get_sector_region s).2 (cols.zip r0.cells)
        (h r0 (List.mem_cons_self _ _) (by simp [hh]))
      refine ⟨recs0 ++ recs1, ?_, ?_⟩
      · simp [rhoRows, hh, hok0, hok1]
      · simp [hh, hmap0, hmap1]

theorem filter_key_singleton {κ : Type} [DecidableEq κ] :
    ∀ (l : List (κ × ℚ)) (k : κ) (q : ℚ),
    (l.map Prod.fst).Nodup → (k, q) ∈ l →
    l.filter (fun p => p.1 = k) = [(k, q)]
  | [], _, _, _, hm => by simp at hm
  | (k0, q0) :: rest, k, q, hnd, hm => by
    rw [List.map_cons] at hnd
    have hk0 : k0 ∉ rest.map Prod.fst := (List.nodup_cons.mp hnd).1
    have hndr : (rest.map Prod.fst).Nodup := (List.nodup_cons.mp hnd).2
    rcases List.mem_cons.mp hm with heq | htail
    · injection heq with h1 h2
      subst h1; subst h2
      have hnil : rest.filter (fun p => p.1 = k) = [] := by
        rw [List.filter_eq_nil_iff]
        intro p hp
        simp only [decide_eq_true_eq]
        intro hpk
        exact hk0 (List.mem_map.mpr ⟨p, hp, hpk⟩)
      simp [List.filter, hnil]
    · have hne : ¬ (k0 = k) := by
        intro hkk
        exact hk0 (hkk ▸ List.mem_map.mpr ⟨(k, q), htail, rfl⟩)
      have ih := filter_key_singleton rest k q hndr htail
      simp [List.filter, hne, ih]

theorem filter_by_key_of_map_eq {l : List RhoRec}
    {pairs : List ((String × String × Int) × ℚ)}
    (hmap : l.map rhoKeyVal = pairs)
    (hnd : (pairs.map Prod.fst).Nodup)
    {k : String × String × Int} {q : ℚ} (hkq : (k, q) ∈ pairs) :
    (l.filter (fun rec => rhoKey rec = k)).map RhoRec.rho_value = [q] := by
  subst hmap
  have hfm := List.filter_map (p := fun p => decide (p.1 = k)) rhoKeyVal l
  have hsing := filter_key_singleton (l.map rhoKeyVal) k q hnd hkq
  rw [hfm] at hsing
  have hsing2 : (List.filter (fun rec => decide (rhoKey rec = k)) l).map
      rhoKeyVal = [(k, q)] := hsing
  cases hf : l.filter (fun rec => rhoKey rec = k) with
  | nil => rw [hf] at hsing2; simp at hsing2
  | cons r0 rtail =>
    rw [hf] at hsing2
    cases rtail with
    | nil =>
      simp only [List.map_cons, List.map_nil, List.cons.injEq] at hsing2
      obtain ⟨h0, _⟩ := hsing2
      have : r0.rho_value = q := congrArg Prod.snd h0
      simp [this]
    | cons r1 rtail2 => simp at hsing2

/-- C8 (amended): on a Rho table whose reachable value cells (those in
rows with a non-null first-column cell, under an integer-convertible
year column) are all null-or-convertible, the melt succeeds and emits
exactly one record per non-null convertible cell — in source order,
value unchanged — so that, when the `(sector_code, region, year)` keys
are pairwise distinct, re-aggregating the output by key recovers each
original cell value exactly; null cells and non-convertible column
labels contribute nothing, and rows with a null first-column cell are
dropped whole (the original claim overlooked the latter, see the
counterexample). -/
theorem C8_rho_round_trip_spec (v : String) (t : Table)
    (hconv : ∀ r ∈ t.rows, r.head ≠ Cell.na →
      ∀ p ∈ t.cols.zip r.cells, p.1.f ≠ none → p.2 ≠ Cell.na →
        isConvVal p.2 = true)
    (hnd : ((rhoTablePairs t).map Prod.fst).Nodup) :
    ∃ recs, load_rho_long v t = .ok recs ∧
      recs.map rhoKeyVal = rhoTablePairs t ∧
      ∀ k q, (k, q) ∈ rhoTablePairs t →
        (recs.filter (fun rec => rhoKey rec = k)).map RhoRec.rho_value = [q] := by
  obtain ⟨recs, hok, hmap⟩ := rhoRows_ok_of_conv v t.cols t.rows hconv
  have hmap2 : recs.map rhoKeyVal = rhoTablePairs t := hmap
  refine ⟨recs, hok, hmap2, ?_⟩
  intro k q hkq
  exact filter_by_key_of_map_eq hmap2 hnd hkq

/-- A Rho table whose single data row has a null first-column cell but
a non-null, convertible value cell under the year column `2019`. -/
def rhoNaHeadTable : Table :=
  ⟨[⟨"2019", some 2019⟩], [⟨.na, [.val "3.5" (some (7 / 2))]⟩]⟩

theorem C8_counterexample :
    load_rho_long "v8" rhoNaHeadTable = .ok [] ∧
    cellAt rhoNaHeadTable 0 0 = some (.val "3.5" (some (7 / 2))) ∧
    (rhoNaHeadTable.cols.get? 0).map ColLabel.f = some (some 2019) :=
  ⟨rfl, rfl, rfl⟩

/-- A well-formed Rho table: one data row keyed `1111A0/US` with a
convertible cell under year `2019` and a text cell under the
non-convertible `Units` column, plus a null-keyed row. -/
def rhoGoodTable : Table :=
  ⟨[⟨"2019", some 2019⟩, ⟨"Units", none⟩],
   [⟨.val "1111A0/US" none, [.val "3.5" (some (7 / 2)), .val "kg" none]⟩,
    ⟨.na, [.val "9" (some 9), .na]⟩]⟩

theorem C8_rho_round_trip_witness :
    (∀ r ∈ rhoGoodTable.rows, r.head ≠ Cell.na →
      ∀ p ∈ rhoGoodTable.cols.zip r.cells, p.1.f ≠ none → p.2 ≠ Cell.na →
        isConvVal p.2 = true) ∧
    ((rhoTablePairs rhoGoodTable).map Prod.fst).Nodup ∧
    (∃ recs, load_rho_long "v2.6" rhoGoodTable = .ok recs ∧
      recs.map rhoKeyVal = rhoTablePairs rhoGoodTable ∧
      ∀ k q, (k, q) ∈ rhoTablePairs rhoGoodTable →
        (recs.filter (fun rec => rhoKey rec = k)).map RhoRec.rho_value = [q]) :=
  ⟨by decide, by decide, C8_rho_round_trip_spec "v2.6" rhoGoodTable
    (by decide) (by decide)⟩

/-! ## C melt: first-column code bypass -/

/-- The C-melt first-column test, exactly as in the source: the cell is
non-null, and its stripped string is non-empty and not
`isdigit`-looking after removing `.` and `-`. -/
def headBypass : Cell → Bool
  | .na => false
  | .val s _ =>
    !(pyStrip s.toList).isEmpty && !pyIsDigit (removeDotsDashes (pyStrip s.toList))

theorem chooseCode_of_bypass_val (idx : List (Int × String)) (i : Nat)
    (s : String) (f : Option ℚ) (h : headBypass (Cell.val s f) = true) :
    chooseCode idx i (Cell.val s f) = some (String.mk (pyStrip s.toList)) := by
  simp only [headBypass] at h
  simp only [chooseCode]
  rw [if_pos h]

theorem chooseCode_of_fallback_val (idx : List (Int × String)) (i : Nat)
    (s : String) (f : Option ℚ)
    (h : pyStrip s.toList = [] ∨
      pyIsDigit (removeDotsDashes (pyStrip s.toList)) = true) :
    chooseCode idx i (Cell.val s f) = dictGet idx (Int.ofNat i) := by
  simp only [chooseCode]
  have hnot : ¬ ((!(pyStrip s.toList).isEmpty &&
      !pyIsDigit (removeDotsDashes (pyStrip s.toList))) = true) := by
    rcases h with he | hd
    · rw [he]; simp
    · rw [hd]; simp
  rw [if_neg hnot]

theorem cRows_idx_independent (v : String) (idx idx' : List (Int × String))
    (cols : List ColLabel) :
    ∀ (rows : List DataRow) (n : Nat),
    (∀ r ∈ rows, headBypass r.head = true) →
    cRows v idx cols n rows = cRows v idx' cols n rows
  | [], _, _ => rfl
  | r0 :: rs, n, h => by
    have hby := h r0 (List.mem_cons_self _ _)
    cases hh : r0.head with
    | na => rw [hh] at hby; simp [headBypass] at hby
    | val s f =>
      rw [hh] at hby
      simp only [cRows, hh, chooseCode_of_bypass_val idx n s f hby,
        chooseCode_of_bypass_val idx' n s f hby]
      rw [cRows_idx_independent v idx idx' cols rs (n + 1)
        (fun r hr => h r (List.mem_cons_of_mem _ hr))]

theorem cRows_mem_iff (v : String) (idx : List (Int × String))
    (cols : List ColLabel) :
    ∀ (rows : List DataRow) (n : Nat) (rec : CRec),
    rec ∈ cRows v idx cols n rows ↔
      ∃ i r, rows.get? i = some r ∧ ∃ code,
        chooseCode idx (n + i) r.head = some code ∧
        rec ∈ cCells v code (cols.zip r.cells) := by
  intro rows
  induction rows with
  | nil => intro n rec; simp [cRows]
  | cons r0 rs ih =>
    intro n rec
    constructor
    · intro hmem
      rcases List.mem_append.mp hmem with hL | hR
      · cases hd : chooseCode idx n r0.head with
        | none => rw [hd] at hL; simp at hL
        | some code =>
          rw [hd] at hL
          refine ⟨0, r0, rfl, code, ?_, hL⟩
          rw [Nat.add_zero]
          exact hd
      · obtain ⟨i, r, hget, code, hcode, hcell⟩ := (ih (n + 1) rec).mp hR
        refine ⟨i + 1, r, by simpa using hget, code, ?_, hcell⟩
        rw [show n + (i + 1) = (n + 1) + i by omega]
        exact hcode
    · rintro ⟨i, r, hget, code, hcode, hcell⟩
      cases i with
      | zero =>
        have hr0 : r0 = r := by simpa using hget
        subst hr0
        apply List.mem_append_left
        rw [Nat.add_zero] at hcode
        rw [hcode]
        exact hcell
      | succ i2 =>
        apply List.mem_append_right
        refine (ih (n + 1) rec).mpr ⟨i2, r, by simpa using hget, code, ?_, hcell⟩
        rw [show (n + 1) + i2 = n + (i2 + 1) by omega]
        exact hcode

/-- C10 (amended): in the C-matrix melt, a row whose first-column cell
is non-null and trims to a NON-EMPTY string that is not numeric-looking
(Python `isdigit` on the string with `.` and `-` removed) uses that
trimmed string itself as the indicator code, bypassing the
index-to-code map entirely (the output does not depend on the map when
every row is of this form); rows whose first cell is null, trims to the
empty string, or is numeric-looking fall back to positional resolution
through the map, and every emitted record's code arises from this
per-row choice.  (The original claim omitted the empty-after-trim
fallback, see the counterexample.) -/
theorem C10_c_code_choice_spec (v : String) (idx idx' : List (Int × String))
    (t : Table) (i : Nat) (s : String) (f : Option ℚ)
    (hall : ∀ r ∈ t.rows, headBypass r.head = true)
    (hby : headBypass (Cell.val s f) = true) :
    load_c_matrix_long v idx t = load_c_matrix_long v idx' t ∧
    chooseCode idx i (Cell.val s f) = some (String.mk (pyStrip s.toList)) ∧
    chooseCode idx i Cell.na = dictGet idx (Int.ofNat i) ∧
    (∀ s2 f2, (pyStrip s2.toList = [] ∨
        pyIsDigit (removeDotsDashes (pyStrip s2.toList)) = true) →
      chooseCode idx i (Cell.val s2 f2) = dictGet idx (Int.ofNat i)) ∧
    (∀ rec : CRec, rec ∈ load_c_matrix_long v idx t ↔
      ∃ i2 r, t.rows.get? i2 = some r ∧ ∃ code,
        chooseCode idx i2 r.head = some code ∧
        rec ∈ cCells v code (t.cols.zip r.cells)) := by
  refine ⟨cRows_idx_independent v idx idx' t.cols t.rows 0 hall,
    chooseCode_of_bypass_val idx i s f hby, rfl,
    fun s2 f2 hf2 => chooseCode_of_fallback_val idx i s2 f2 hf2,
    fun rec => ?_⟩
  have h := cRows_mem_iff v idx t.cols t.rows 0 rec
  simpa using h

/-- A C-matrix table whose single row has a non-null first cell that
trims to the empty string, with the map holding a code for position 0. -/
def cBlankHeadTable : Table :=
  ⟨[⟨"F", none⟩], [⟨.val " " (some 1), [.val "2" (some 2)]⟩]⟩

theorem C10_counterexample :
    pyIsDigit (removeDotsDashes (pyStrip (String.toList " "))) = false ∧
    load_c_matrix_long "v" [(0, "IND0")] cBlankHeadTable =
      [⟨"v", "IND0", "F", 2⟩] ∧
    ("IND0" : String) ≠ "" :=
  ⟨rfl, rfl, by decide⟩

theorem C10_c_code_choice_witness :
    (∀ r ∈ cFirstRowTable.rows, headBypass r.head = true) ∧
    headBypass (Cell.val " ACID " none) = true ∧
    (load_c_matrix_long "v" [(0, "X")] cFirstRowTable =
        load_c_matrix_long "v" [] cFirstRowTable ∧
      chooseCode [(0, "X")] 0 (Cell.val " ACID " none) =
        some (String.mk (pyStrip (String.toList " ACID "))) ∧
      chooseCode [(0, "X")] 0 Cell.na = dictGet [(0, "X")] (Int.ofNat 0) ∧
      (∀ s2 f2, (pyStrip s2.toList = [] ∨
          pyIsDigit (removeDotsDashes (pyStrip s2.toList)) = true) →
        chooseCode [(0, "X")] 0 (Cell.val s2 f2) =
          dictGet [(0, "X")] (Int.ofNat 0)) ∧
      (∀ rec : CRec, rec ∈ load_c_matrix_long "v" [(0, "X")] cFirstRowTable ↔
        ∃ i2 r, cFirstRowTable.rows.get? i2 = some r ∧ ∃ code,
          chooseCode [(0, "X")] i2 r.head = some code ∧
          rec ∈ cCells "v" code (cFirstRowTable.cols.zip r.cells))) :=
  ⟨by decide, by decide,
   C10_c_code_choice_spec "v" [(0, "X")] [] cFirstRowTable 0 " ACID " none
     (by decide) (by decide)⟩

/-! ## `build_index_to_code`

`build_index_to_code(indicators_df)` returns
`df.set_index("index")["code"].astype(str).to_dict()` when an `index`
column exists, else `df["code"].astype(str).to_dict()`.  A pandas
`Series.to_dict` keys the dictionary by the frame's INDEX LABELS, and
`dropna` (applied in `main` before the call) preserves labels, so the
no-`index`-column mapping is label → code, not ordinal position →
code. -/

/-- One indicator row as seen by `build_index_to_code`: its pandas
index label, the value of an explicit `index` column (meaningful only
when the table has one), and its nullable `code` cell. -/
structure IndRow where
  label : Int
  indexVal : Int
  code : Option String
deriving DecidableEq, Repr

/-- An indicator table: whether an `index` column is present, plus rows. -/
structure IndTable where
  hasIndexCol : Bool
  rows : List IndRow
deriving DecidableEq, Repr

/-- pandas `astype(str)` on a nullable code (`NaN` prints as `"nan"`). -/
def codeStr (c : Option String) : String :=
  c.getD "nan"

/-- `build_index_to_code` from `load_useeio.py`. -/
def build_index_to_code (t : IndTable) : List (Int × String) :=
  if t.hasIndexCol then t.rows.map (fun r => (r.indexVal, codeStr r.code))
  else t.rows.map (fun r => (r.label, codeStr r.code))

/-- `df.dropna(subset=["code"])`: keep rows with a non-null code; the
pandas index labels of the kept rows are preserved. -/
def dropna_code (rows : List IndRow) : List IndRow :=
  rows.filter (fun r => r.code.isSome)

/-- Indicator rows as first produced by `load_indicators`: a default
`RangeIndex` labels them 0, 1, 2, … in sheet order. -/
def freshIndRows (codes : List (Option String)) : List IndRow :=
  codes.enum.map (fun p => ⟨Int.ofNat p.1, 0, p.2⟩)

theorem dictGet_eq_none : ∀ (d : List (Int × String)) (k : Int),
    k ∉ d.map Prod.fst → dictGet d k = none
  | [], _, _ => rfl
  | (k0, c0) :: rest, k, h => by
    have hk0 : ¬ (k0 = k) := by
      intro he
      exact h (by simp [he])
    have hrest : k ∉ rest.map Prod.fst := by
      intro hm
      exact h (by simp [hm])
    simp [dictGet, dictGet_eq_none rest k hrest, hk0]

theorem dictGet_of_nodup : ∀ (d : List (Int × String)) (k : Int) (c : String),
    (d.map Prod.fst).Nodup → (k, c) ∈ d → dictGet d k = some c
  | [], _, _, _, hm => by simp at hm
  | (k0, c0) :: rest, k, c, hnd, hm => by
    rw [List.map_cons] at hnd
    have hk0 : k0 ∉ rest.map Prod.fst := (List.nodup_cons.mp hnd).1
    have hndr : (rest.map Prod.fst).Nodup := (List.nodup_cons.mp hnd).2
    rcases List.mem_cons.mp hm with heq | htail
    · injection heq with h1 h2
      subst h1; subst h2
      simp [dictGet, dictGet_eq_none rest k hk0]
    · have ih := dictGet_of_nodup rest k c hndr htail
      simp [dictGet, ih]

theorem dictGet_posLabels : ∀ (rows : List IndRow) (base k : Nat) (r : IndRow),
    (∀ j r2, rows.get? j = some r2 → r2.label = ((base + j : Nat) : Int)) →
    rows.get? k = some r →
    dictGet (rows.map (fun r0 => (r0.label, codeStr r0.code)))
      ((base + k : Nat) : Int) = some (codeStr r.code)
  | [], _, k, _, _, hk => by simp at hk
  | r0 :: rs, base, 0, r, hlbl, hk => by
    have hr0 : r0 = r := by simpa using hk
    subst hr0
    have hl0 : r0.label = ((base + 0 : Nat) : Int) := hlbl 0 r0 rfl
    have hnone : dictGet (rs.map (fun r2 => (r2.label, codeStr r2.code)))
        ((base + 0 : Nat) : Int) = none := by
      apply dictGet_eq_none
      intro hmem
      rw [List.map_map] at hmem
      obtain ⟨r2, hr2, hcomp⟩ := List.mem_map.mp hmem
      have hlab : r2.label = ((base + 0 : Nat) : Int) := hcomp
      obtain ⟨j, hj⟩ := List.get?_of_mem hr2
      have hlb : r2.label = ((base + (j + 1) : Nat) : Int) :=
        hlbl (j + 1) r2 (by simpa using hj)
      rw [hlb] at hlab
      have hnat : base + (j + 1) = base + 0 := Nat.cast_inj.mp hlab
      omega
    show (match dictGet (rs.map (fun r2 => (r2.label, codeStr r2.code)))
        ((base + 0 : Nat) : Int) with
      | some c => some c
      | none => if r0.label = ((base + 0 : Nat) : Int)
          then some (codeStr r0.code) else none) = some (codeStr r0.code)
    rw [hnone, if_pos hl0]
  | r0 :: rs, base, k + 1, r, hlbl, hk => by
    have hk2 : rs.get? k = some r := by simpa using hk
    have ih := dictGet_posLabels rs (base + 1) k r
      (fun j r2 hj => by
        have h := hlbl (j + 1) r2 (by simpa using hj)
        rw [h]
        congr 1
        omega) hk2
    have harith : ((base + (k + 1) : Nat) : Int) = (((base + 1) + k : Nat) : Int) := by
      congr 1
      omega
    show (match dictGet (rs.map (fun r2 => (r2.label, codeStr r2.code)))
        ((base + (k + 1) : Nat) : Int) with
      | some c => some c
      | none => if r0.label = ((base + (k + 1) : Nat) : Int)
          then some (codeStr r0.code) else none) = some (codeStr r.code)
    rw [harith]
    simp only [ih]

theorem impactRows_empty_idx (v ty : String) (cols : List ColLabel) :
    ∀ (rows : List DataRow) (n : Nat), impactRows v ty [] cols n rows = []
  | [], _ => rfl
  | r :: rs, n => by
    simp [impactRows, dictGet, impactRows_empty_idx v ty cols rs (n + 1)]

/-- C7 (amended): with an explicit `index` column (and distinct index
values), `build_index_to_code` maps each index value to its code; with
no `index` column it maps each row's pandas index LABEL to its code,
which coincides with the ordinal position 0, 1, 2, … in iteration order
exactly when the labels are the default consecutive range (no rows were
dropped upstream — the counterexample shows a dropped null-code row
shifts the keys); on an empty table the mapping is empty, and every
downstream impact-melter lookup misses, so the melt yields no records
rather than failing. -/
theorem C7_index_resolver_spec (t t2 : IndTable) (r r2 : IndRow) (k : Nat)
    (b : Bool) (v ty : String) (t3 : Table)
    (hIdx : t.hasIndexCol = true)
    (hnd : (t.rows.map IndRow.indexVal).Nodup)
    (hr : r ∈ t.rows)
    (hNoIdx : t2.hasIndexCol = false)
    (hlbl : ∀ j r0, t2.rows.get? j = some r0 → r0.label = Int.ofNat j)
    (hk : t2.rows.get? k = some r2) :
    dictGet (build_index_to_code t) r.indexVal = some (codeStr r.code) ∧
    dictGet (build_index_to_code t2) (Int.ofNat k) = some (codeStr r2.code) ∧
    build_index_to_code ⟨b, []⟩ = [] ∧
    load_impact_long v ty [] t3 = [] := by
  refine ⟨?_, ?_, ?_, ?_⟩
  · unfold build_index_to_code
    rw [if_pos hIdx]
    apply dictGet_of_nodup
    · rw [List.map_map]
      exact hnd
    · exact List.mem_map.mpr ⟨r, hr, rfl⟩
  · unfold build_index_to_code
    rw [if_neg (by simp [hNoIdx])]
    have hres := dictGet_posLabels t2.rows 0 k r2
      (fun j r0 hj => by
        have := hlbl j r0 hj
        rw [this]
        simp) hk
    have hkey : ((0 + k : Nat) : Int) = Int.ofNat k := by
      simp
    rw [hkey] at hres
    exact hres
  · cases b <;> simp [build_index_to_code]
  · unfold load_impact_long
    cases hrows : t3.rows with
    | nil => rfl
    | cons r0 rest => exact impactRows_empty_idx v ty t3.cols rest 0

theorem C7_counterexample :
    build_index_to_code
      ⟨false, dropna_code (freshIndRows [some "A", none, some "B"])⟩ =
      [(0, "A"), (2, "B")] ∧
    dictGet (build_index_to_code
      ⟨false, dropna_code (freshIndRows [some "A", none, some "B"])⟩) 1 = none ∧
    (dropna_code (freshIndRows [some "A", none, some "B"])).length = 2 :=
  ⟨rfl, rfl, rfl⟩

theorem C7_index_resolver_witness :
    (IndTable.hasIndexCol ⟨true, [⟨0, 10, some "A"⟩, ⟨1, 20, some "B"⟩]⟩ = true) ∧
    ((IndTable.rows ⟨true, [⟨0, 10, some "A"⟩, ⟨1, 20, some "B"⟩]⟩).map
      IndRow.indexVal).Nodup ∧
    ((⟨1, 20, some "B"⟩ : IndRow) ∈
      IndTable.rows ⟨true, [⟨0, 10, some "A"⟩, ⟨1, 20, some "B"⟩]⟩) ∧
    (IndTable.hasIndexCol ⟨false, [⟨0, 0, some "A"⟩, ⟨1, 0, some "B"⟩]⟩ = false) ∧
    (∀ j r0, (IndTable.rows ⟨false, [⟨0, 0, some "A"⟩, ⟨1, 0, some "B"⟩]⟩).get? j =
        some r0 → r0.label = Int.ofNat j) ∧
    ((IndTable.rows ⟨false, [⟨0, 0, some "A"⟩, ⟨1, 0, some "B"⟩]⟩).get? 1 =
      some ⟨1, 0, some "B"⟩) ∧
    (dictGet (build_index_to_code ⟨true, [⟨0, 10, some "A"⟩, ⟨1, 20, some "B"⟩]⟩)
        (IndRow.indexVal ⟨1, 20, some "B"⟩) =
      some (codeStr (IndRow.code (⟨1, 20, some "B"⟩ : IndRow))) ∧
     dictGet (build_index_to_code ⟨false, [⟨0, 0, some "A"⟩, ⟨1, 0, some "B"⟩]⟩)
        (Int.ofNat 1) = some (codeStr (IndRow.code (⟨1, 0, some "B"⟩ : IndRow))) ∧
     build_index_to_code ⟨false, []⟩ = [] ∧
     load_impact_long "v" "total" [] cFirstRowTable = []) := by
  have hl : ∀ j r0,
      (IndTable.rows ⟨false, [⟨0, 0, some "A"⟩, ⟨1, 0, some "B"⟩]⟩).get? j =
        some r0 → r0.label = Int.ofNat j := by
    intro j r0 hj
    match j, hj with
    | 0, hj =>
      have : (⟨0, 0, some "A"⟩ : IndRow) = r0 := by simpa using hj
      rw [← this]
      rfl
    | 1, hj =>
      have : (⟨1, 0, some "B"⟩ : IndRow) = r0 := by simpa using hj
      rw [← this]
      rfl
  exact ⟨rfl, by decide, by decide, rfl, hl, rfl,
    C7_index_resolver_spec ⟨true, [⟨0, 10, some "A"⟩, ⟨1, 20, some "B"⟩]⟩
      ⟨false, [⟨0, 0, some "A"⟩, ⟨1, 0, some "B"⟩]⟩ ⟨1, 20, some "B"⟩
      ⟨1, 0, some "B"⟩ 1 false "v" "total" cFirstRowTable
      rfl (by decide) (by decide) rfl hl rfl⟩

/-! ## `detect_years_from_xlsx`

Both detections are wrapped in `try/except Exception: pass` in the
source; a sheet whose read raises is modelled as `none`, and the
detector is a total function — detection never aborts the load. -/

/-- A raw sheet read with `header=0`: all column labels and the data
rows (cells positionally aligned with the labels). -/
structure SheetData where
  header : List ColLabel
  rows : List (List Cell)
deriving DecidableEq, Repr

/-- A workbook: named sheets in order; a `none` body models a sheet
whose `pd.read_excel` raises (the failure is swallowed). -/
structure Workbook where
  sheets : List (String × Option SheetData)
deriving DecidableEq, Repr

/-- Python `str.lower()` (ASCII). -/
def pyLower (l : List Char) : List Char :=
  l.map Char.toLower

/-- `next((s for s in xl.sheet_names if s.strip().lower() == target), None)`. -/
def findSheet (wb : Workbook) (target : String) :
    Option (String × Option SheetData) :=
  wb.sheets.find? (fun p => pyLower (pyStrip p.1.toList) == target.toList)

/-- The accepted year-column header synonyms. -/
def yearSynonyms : List String :=
  ["year", "economic year", "economic_year"]

/-- `int(float(val))` on a cell, `none` when null or not convertible. -/
def cellYear : Cell → Option Int
  | .val _ (some q) => some (pyInt q)
  | _ => none

/-- `for val in df_d[year_col].dropna(): try: return int(float(val))
except: continue`. -/
def firstYear : List Cell → Option Int
  | [] => none
  | .na :: rest => firstYear rest
  | .val _ f :: rest =>
    match f with
    | some q => some (pyInt q)
    | none => firstYear rest

/-- Economic-year detection from the demands sheet. -/
def detectEconomicYear (wb : Workbook) : Option Int :=
  match findSheet wb "demands" with
  | none => none
  | some (_, none) => none
  | some (_, some d) =>
    match (d.header.map (fun c => String.mk (pyStrip c.s.toList))).findIdx?
        (fun c => yearSynonyms.contains (String.mk (pyLower c.toList))) with
    | none => none
    | some j => firstYear (d.rows.map (fun row => row.getD j Cell.na))

/-- Satellite year range from the Rho sheet's header row.  The first
column is the sector column; any further column whose label equals it
is also skipped (`c is sector_col or c == sector_col`); an empty header
raises `IndexError`, swallowed by the `except`. -/
def detectSatelliteYears (wb : Workbook) : Option Int × Option Int :=
  match findSheet wb "rho" with
  | none => (none, none)
  | some (_, none) => (none, none)
  | some (_, some d) =>
    match d.header with
    | [] => (none, none)
    | c0 :: rest =>
      let years := (rest.filter (fun c => !(c == c0))).filterMap
        (fun c => c.f.map pyInt)
      if years.isEmpty then (none, none) else (years.min?, years.max?)

/-- `detect_years_from_xlsx` from `load_useeio.py`:
`(economic_year, satellite_year_min, satellite_year_max)`. -/
def detect_years_from_xlsx (wb : Workbook) :
    Option Int × Option Int × Option Int :=
  ((detectEconomicYear wb), (detectSatelliteYears wb).1,
    (detectSatelliteYears wb).2)

theorem firstYear_eq_findSome : ∀ cells : List Cell,
    firstYear cells = cells.findSome? cellYear
  | [] => rfl
  | .na :: rest => by
    simp [firstYear, List.findSome?_cons, cellYear,
      firstYear_eq_findSome rest]
  | .val s f :: rest => by
    cases f <;>
      simp [firstYear, List.findSome?_cons, cellYear,
        firstYear_eq_findSome rest]

/-- C9: year detection is best-effort and total.  The economic year is
the first non-null, integer-convertible value of the first column whose
stripped header matches a year synonym case-insensitively, on the
sheet located case-insensitively as `demands`; the satellite range is
the min and max of the integer-convertible column labels of the Rho
header excluding the first (sector) column; a missing sheet, a sheet
whose read fails, or a missing column yields absent values instead of
an error (the detector is a total function by construction). -/
theorem C9_year_detection_spec
    (wb1 wb2 wb3 wb4 : Workbook) (n1 n2 n3 n4 : String) (d dr : SheetData)
    (j : Nat) (c0 : ColLabel) (rest : List ColLabel)
    (hAbs1 : findSheet wb1 "demands" = none)
    (hAbs2 : findSheet wb1 "rho" = none)
    (hCor1 : findSheet wb2 "demands" = some (n1, none))
    (hCor2 : findSheet wb2 "rho" = some (n2, none))
    (hDem : findSheet wb3 "demands" = some (n3, some d))
    (hCol : (d.header.map (fun c => String.mk (pyStrip c.s.toList))).findIdx?
        (fun c => yearSynonyms.contains (String.mk (pyLower c.toList))) = some j)
    (hRho : findSheet wb4 "rho" = some (n4, some dr))
    (hHdr : dr.header = c0 :: rest)
    (hc0 : c0 ∉ rest) :
    detectEconomicYear wb1 = none ∧
    detectSatelliteYears wb1 = (none, none) ∧
    detectEconomicYear wb2 = none ∧
    detectSatelliteYears wb2 = (none, none) ∧
    detectEconomicYear wb3 =
      (d.rows.map (fun row => row.getD j Cell.na)).findSome? cellYear ∧
    detectSatelliteYears wb4 =
      ((rest.filterMap (fun c => c.f.map pyInt)).min?,
       (rest.filterMap (fun c => c.f.map pyInt)).max?) ∧
    detect_years_from_xlsx wb4 = (detectEconomicYear wb4,
      (detectSatelliteYears wb4).1, (detectSatelliteYears wb4).2) := by
  refine ⟨?_, ?_, ?_, ?_, ?_, ?_, rfl⟩
  · simp [detectEconomicYear, hAbs1]
  · simp [detectSatelliteYears, hAbs2]
  · simp [detectEconomicYear, hCor1]
  · simp [detectSatelliteYears, hCor2]
  · unfold detectEconomicYear
    rw [hDem]
    show (match (d.header.map (fun c => String.mk (pyStrip c.s.toList))).findIdx?
        (fun c => yearSynonyms.contains (String.mk (pyLower c.toList))) with
      | none => none
      | some j2 => firstYear (d.rows.map (fun row => row.getD j2 Cell.na))) =
      (d.rows.map (fun row => row.getD j Cell.na)).findSome? cellYear
    rw [hCol]
    exact firstYear_eq_findSome _
  · have hfilter : rest.filter (fun c => !(c == c0)) = rest := by
      apply List.filter_eq_self.mpr
      intro c hc
      simp only [Bool.not_eq_eq_eq_not, Bool.not_true, beq_eq_false_iff_ne,
        ne_eq]
      intro he
      exact hc0 (he ▸ hc)
    simp only [detectSatelliteYears, hRho, hHdr, hfilter]
    by_cases hemp : (rest.filterMap (fun c => c.f.map pyInt)).isEmpty
    · rw [if_pos hemp]
      rw [List.isEmpty_iff] at hemp
      rw [hemp]
      rfl
    · rw [if_neg hemp]

/-- A demo workbook: a demands sheet (matched case-insensitively, with
a `Year` column whose first non-null value converts to 2019) and a Rho
sheet with year columns 2019 and 2021 around a `Units` column. -/
def demoWorkbook : Workbook :=
  ⟨[("Demands ", some ⟨[⟨"Sector", none⟩, ⟨"Year", none⟩],
      [[.val "X" none, .na],
       [.val "Y" none, .val "2019" (some 2019)]]⟩),
    ("Rho", some ⟨[⟨"Sector", none⟩, ⟨"2019", some 2019⟩, ⟨"Units", none⟩,
      ⟨"2021", some 2021⟩], []⟩)]⟩

/-- A workbook with no matching sheets. -/
def emptyWorkbook : Workbook := ⟨[("other", some ⟨[], []⟩)]⟩

/-- A workbook whose demands and Rho sheets fail to read. -/
def corruptWorkbook : Workbook := ⟨[("demands", none), ("RHO", none)]⟩

theorem C9_year_detection_witness :
    findSheet emptyWorkbook "demands" = none ∧
    findSheet emptyWorkbook "rho" = none ∧
    findSheet corruptWorkbook "demands" = some ("demands", none) ∧
    findSheet corruptWorkbook "rho" = some ("RHO", none) ∧
    findSheet demoWorkbook "demands" =
      some ("Demands ", some ⟨[⟨"Sector", none⟩, ⟨"Year", none⟩],
        [[.val "X" none, .na], [.val "Y" none, .val "2019" (some 2019)]]⟩) ∧
    findSheet demoWorkbook "rho" =
      some ("Rho", some ⟨[⟨"Sector", none⟩, ⟨"2019", some 2019⟩,
        ⟨"Units", none⟩, ⟨"2021", some 2021⟩], []⟩) ∧
    (⟨"Sector", none⟩ : ColLabel) ∉
      [⟨"2019", some 2019⟩, ⟨"Units", none⟩, (⟨"2021", some 2021⟩ : ColLabel)] ∧
    detect_years_from_xlsx demoWorkbook = (some 2019, some 2019, some 2021) ∧
    (detectEconomicYear emptyWorkbook = none ∧
     detectSatelliteYears emptyWorkbook = (none, none) ∧
     detectEconomicYear corruptWorkbook = none ∧
     detectSatelliteYears corruptWorkbook = (none, none)) := by
  refine ⟨by decide, by decide, by decide, by decide, by decide, by decide,
    by decide, by decide, ?_⟩
  have h := C9_year_detection_spec emptyWorkbook corruptWorkbook demoWorkbook
    demoWorkbook "demands" "RHO" "Demands " "Rho"
    ⟨[⟨"Sector", none⟩, ⟨"Year", none⟩],
      [[.val "X" none, .na], [.val "Y" none, .val "2019" (some 2019)]]⟩
    ⟨[⟨"Sector", none⟩, ⟨"2019", some 2019⟩, ⟨"Units", none⟩,
      ⟨"2021", some 2021⟩], []⟩
    1 ⟨"Sector", none⟩
    [⟨"2019", some 2019⟩, ⟨"Units", none⟩, ⟨"2021", some 2021⟩]
    (by decide) (by decide) (by decide) (by decide) (by decide) (by decide)
    (by decide) (by decide) (by decide)
  exact ⟨h.1, h.2.1, h.2.2.1, h.2.2.2.1⟩

/-! ## `load_model_metadata` (ActiveModelTracker)

Upsert the row for the version with `is_active = true`
(`on_conflict="model_version"`, replace on key match), THEN set
`is_active = false` on every row whose `model_version` differs.  A
missing `model_metadata` table raises `APIError` with code `PGRST205`,
which is caught and turned into a notice. -/

/-- A `model_metadata` row. -/
structure MetaRow where
  model_version : String
  economic_year : Option Int
  satellite_year_min : Option Int
  satellite_year_max : Option Int
  is_active : Bool
deriving DecidableEq, Repr

/-- PostgREST upsert with `on_conflict="model_version"`: replace rows
matching the key, else append. -/
def upsertMeta (rows : List MetaRow) (rec : MetaRow) : List MetaRow :=
  if rows.any (fun r => r.model_version == rec.model_version)
  then rows.map (fun r => if r.model_version == rec.model_version then rec else r)
  else rows ++ [rec]

/-- `update({"is_active": False}).neq("model_version", v)`. -/
def deactivateOthers (rows : List MetaRow) (v : String) : List MetaRow :=
  rows.map (fun r => if r.model_version == v then r
    else { r with is_active := false })

/-- Outcome of `load_model_metadata`: the new table contents, or the
skipped-with-notice outcome when the table does not exist. -/
inductive MetaOutcome where
  | updated (rows : List MetaRow)
  | skippedNotice
deriving DecidableEq, Repr

/-- `load_model_metadata` from `load_useeio.py`; the store is `none`
when the `model_metadata` table does not exist (`PGRST205`). -/
def load_model_metadata (store : Option (List MetaRow)) (v : String)
    (ey ymin ymax : Option Int) : MetaOutcome :=
  match store with
  | none => .skippedNotice
  | some rows =>
    .updated (deactivateOthers (upsertMeta rows ⟨v, ey, ymin, ymax, true⟩) v)

theorem deactivateOthers_filter_active (v : String) :
    ∀ rows : List MetaRow,
    (deactivateOthers rows v).filter MetaRow.is_active =
      rows.filter (fun r => r.model_version == v && r.is_active)
  | [] => rfl
  | r :: rest => by
    have ih := deactivateOthers_filter_active v rest
    cases hv : r.model_version == v with
    | true =>
      cases ha : r.is_active with
      | true => simp [deactivateOthers, List.filter, hv, ha] at ih ⊢; exact ih
      | false => simp [deactivateOthers, List.filter, hv, ha] at ih ⊢; exact ih
    | false => simp [deactivateOthers, List.filter, hv] at ih ⊢; exact ih

theorem upsertMeta_filter_key (rec : MetaRow) (hact : rec.is_active = true) :
    ∀ rows : List MetaRow,
    (rows.map MetaRow.model_version).Nodup →
    (upsertMeta rows rec).filter
      (fun r => r.model_version == rec.model_version && r.is_active) = [rec]
  | [], _ => by
    simp [upsertMeta, List.filter, hact]
  | r :: rest, hnd => by
    rw [List.map_cons] at hnd
    have hr : r.model_version ∉ rest.map MetaRow.model_version :=
      (List.nodup_cons.mp hnd).1
    have hndr : (rest.map MetaRow.model_version).Nodup :=
      (List.nodup_cons.mp hnd).2
    cases hv : r.model_version == rec.model_version with
    | true =>
      have hveq : r.model_version = rec.model_version := by
        simpa using hv
      have hnone : ∀ r2 ∈ rest, (r2.model_version == rec.model_version) = false := by
        intro r2 hr2
        rw [beq_eq_false_iff_ne]
        intro he
        exact hr (by
          rw [hveq, ← he]
          exact List.mem_map.mpr ⟨r2, hr2, rfl⟩)
      have hmapid : rest.map (fun r2 => if r2.model_version == rec.model_version
          then rec else r2) = rest := by
        apply List.map_congr_left ?_ |>.trans (List.map_id rest)
        intro r2 hr2
        simp [hnone r2 hr2]
      have hfilnil : rest.filter
          (fun r2 => r2.model_version == rec.model_version && r2.is_active) = [] := by
        rw [List.filter_eq_nil_iff]
        intro r2 hr2
        simp [hnone r2 hr2]
      simp only [upsertMeta, List.any_cons, hv, Bool.true_or, if_true,
        List.map_cons, hv, if_pos]
      rw [hmapid]
      simp [List.filter, hact, hfilnil]
    | false =>
      cases hany : rest.any (fun r2 => r2.model_version == rec.model_version) with
      | true =>
        have ih := upsertMeta_filter_key rec hact rest hndr
        simp only [upsertMeta, hany, List.any_cons, hv, Bool.false_or, if_true,
          List.map_cons, hv, if_neg Bool.false_ne_true] at ih ⊢
        rw [List.filter_cons, if_neg (by simp [hv])]
        exact ih
      | false =>
        have hnone : ∀ r2 ∈ rest, (r2.model_version == rec.model_version) = false := by
          intro r2 hr2
          have := List.any_eq_false.mp hany r2 hr2
          simpa using this
        have hfilnil : (r :: rest).filter
            (fun r2 => r2.model_version == rec.model_version && r2.is_active) = [] := by
          rw [List.filter_eq_nil_iff]
          intro r2 hr2
          rcases List.mem_cons.mp hr2 with heq | ht
          · subst heq; simp [hv]
          · simp [hnone r2 ht]
        have hanyc : (r :: rest).any
            (fun r2 => r2.model_version == rec.model_version) = false := by
          simp [hv, hany]
        simp only [upsertMeta, hanyc, Bool.false_eq_true, if_false]
        rw [List.filter_append, hfilnil]
        simp [List.filter, hact]

/-- C1: `load_model_metadata` first upserts the row for the version
with `is_active = true` (replace on key match, keyed by
`model_version`) and only then deactivates every other row; on a store
with unique version keys the result has exactly one active row and it
is the row for the given version; a missing metadata table yields the
skipped-with-notice outcome instead of an error. -/
theorem C1_active_tracker_spec (rows : List MetaRow) (v : String)
    (ey ymin ymax : Option Int)
    (hnd : (rows.map MetaRow.model_version).Nodup) :
    load_model_metadata none v ey ymin ymax = .skippedNotice ∧
    load_model_metadata (some rows) v ey ymin ymax =
      .updated (deactivateOthers (upsertMeta rows ⟨v, ey, ymin, ymax, true⟩) v) ∧
    (∃ out, load_model_metadata (some rows) v ey ymin ymax = .updated out ∧
      (out.filter MetaRow.is_active).map MetaRow.model_version = [v] ∧
      out.countP MetaRow.is_active = 1) := by
  refine ⟨rfl, rfl, ⟨deactivateOthers (upsertMeta rows ⟨v, ey, ymin, ymax, true⟩) v,
    rfl, ?_, ?_⟩⟩
  · rw [deactivateOthers_filter_active v,
      upsertMeta_filter_key ⟨v, ey, ymin, ymax, true⟩ rfl rows hnd]
    rfl
  · rw [List.countP_eq_length_filter, deactivateOthers_filter_active v,
      upsertMeta_filter_key ⟨v, ey, ymin, ymax, true⟩ rfl rows hnd]
    rfl

theorem C1_active_tracker_witness :
    (([⟨"v1", none, none, none, true⟩,
       ⟨"v2", some 2019, none, none, false⟩] : List MetaRow).map
      MetaRow.model_version).Nodup ∧
    (load_model_metadata none "v2" (some 2019) (some 2019) (some 2021) =
      .skippedNotice ∧
     load_model_metadata (some [⟨"v1", none, none, none, true⟩,
        ⟨"v2", some 2019, none, none, false⟩]) "v2" (some 2019) (some 2019)
        (some 2021) =
      .updated (deactivateOthers (upsertMeta [⟨"v1", none, none, none, true⟩,
        ⟨"v2", some 2019, none, none, false⟩]
        ⟨"v2", some 2019, some 2019, some 2021, true⟩) "v2") ∧
     (∃ out, load_model_metadata (some [⟨"v1", none, none, none, true⟩,
        ⟨"v2", some 2019, none, none, false⟩]) "v2" (some 2019) (some 2019)
        (some 2021) = .updated out ∧
      (out.filter MetaRow.is_active).map MetaRow.model_version = ["v2"] ∧
      out.countP MetaRow.is_active = 1)) ∧
    load_model_metadata (some [⟨"v1", none, none, none, true⟩,
      ⟨"v2", some 2019, none, none, false⟩]) "v2" (some 2019) (some 2019)
      (some 2021) =
    .updated [⟨"v1", none, none, none, false⟩,
      ⟨"v2", some 2019, some 2019, some 2021, true⟩] :=
  ⟨by decide,
   C1_active_tracker_spec [⟨"v1", none, none, none, true⟩,
     ⟨"v2", some 2019, none, none, false⟩] "v2" (some 2019) (some 2019)
     (some 2021) (by decide),
   by decide⟩

/-! ## `delete_model_version`

For a fixed ordered list of tables, delete all rows with the given
`model_version`; `APIError` with code `PGRST205` (table not found) is
caught, logged and skipped; any other `APIError` is re-raised, aborting
the run. -/

/-- First binding of a key in an association list. -/
def lookupA {α : Type} (k : String) : List (String × α) → Option α
  | [] => none
  | (k2, v2) :: rest => if k2 == k then some v2 else lookupA k rest

/-- Apply `f` to every binding of a key. -/
def updateA {α : Type} (k : String) (f : α → α) :
    List (String × α) → List (String × α)
  | [] => []
  | (k2, v2) :: rest =>
    if k2 == k then (k2, f v2) :: updateA k f rest
    else (k2, v2) :: updateA k f rest

/-- The remote store as the deletion phase sees it: each existing table
is a list of its rows' `model_version` tags (absent name = missing
table, whose delete raises `PGRST205`); `failCodes` injects any other
store error code for a table's delete call. -/
structure DStore where
  tables : List (String × List String)
  failCodes : List (String × String)
deriving DecidableEq, Repr

/-- `client.table(t).delete().eq("model_version", v).execute()`. -/
def storeDeleteEq (st : DStore) (t v : String) : Except String DStore :=
  match lookupA t st.tables with
  | none => .error "PGRST205"
  | some _ =>
    match lookupA t st.failCodes with
    | some c => .error c
    | none =>
      .ok ⟨updateA t (List.filter (fun r => !(r == v))) st.tables, st.failCodes⟩

/-- Per-table log of the deletion loop. -/
inductive DelLog where
  | cleared (t : String)
  | skipped (t : String)
deriving DecidableEq, Repr

/-- The deletion loop body: clear each table, catching `PGRST205`. -/
def deleteLoop (v : String) :
    List String → DStore → Except String (List DelLog × DStore)
  | [], st => .ok ([], st)
  | t :: ts, st =>
    match storeDeleteEq st t v with
    | .ok st2 =>
      match deleteLoop v ts st2 with
      | .ok (logs, stf) => .ok (.cleared t :: logs, stf)
      | .error c => .error c
    | .error c =>
      if c == "PGRST205" then
        match deleteLoop v ts st with
        | .ok (logs, stf) => .ok (.skipped t :: logs, stf)
        | .error c2 => .error c2
      else .error c

/-- The fixed, ordered table list of `delete_model_version`. -/
def TARGET_TABLES : List String :=
  ["impacts", "c", "rho", "sector_crosswalk", "commodities_meta",
   "indicators", "model_metadata"]

/-- `delete_model_version` from `load_useeio.py`. -/
def delete_model_version (st : DStore) (v : String) :
    Except String (List DelLog × DStore) :=
  deleteLoop v TARGET_TABLES st

theorem lookupA_updateA_self {α : Type} (k : String) (f : α → α) :
    ∀ l : List (String × α), lookupA k (updateA k f l) = (lookupA k l).map f
  | [] => rfl
  | (k2, v2) :: rest => by
    cases hk : k2 == k with
    | true => simp [lookupA, updateA, hk, lookupA_updateA_self k f rest]
    | false => simp [lookupA, updateA, hk, lookupA_updateA_self k f rest]

theorem lookupA_updateA_other {α : Type} (k k2 : String) (f : α → α)
    (hne : k2 ≠ k) :
    ∀ l : List (String × α), lookupA k2 (updateA k f l) = lookupA k2 l
  | [] => rfl
  | (k3, v3) :: rest => by
    cases hk : k3 == k with
    | true =>
      have hk3 : k3 = k := by simpa using hk
      have : (k3 == k2) = false := by
        rw [beq_eq_false_iff_ne, hk3]
        exact fun he => hne he.symm
      simp [lookupA, updateA, hk, this, lookupA_updateA_other k k2 f hne rest]
    | false => simp [lookupA, updateA, hk, lookupA_updateA_other k k2 f hne rest]

theorem deleteLoop_noFail (v : String) :
    ∀ (ts : List String) (st : DStore),
    st.failCodes = [] → ts.Nodup →
    ∃ stf, deleteLoop v ts st = .ok
        (ts.map (fun t => if (lookupA t st.tables).isSome
          then DelLog.cleared t else DelLog.skipped t), stf) ∧
      stf.failCodes = [] ∧
      (∀ t ∈ ts, lookupA t stf.tables =
        (lookupA t st.tables).map (List.filter (fun r => !(r == v)))) ∧
      (∀ t, t ∉ ts → lookupA t stf.tables = lookupA t st.tables)
  | [], st, hf, _ => ⟨st, rfl, hf, by simp, fun _ _ => rfl⟩
  | t :: ts, st, hf, hnd => by
    have hts : t ∉ ts := (List.nodup_cons.mp hnd).1
    have hndr : ts.Nodup := (List.nodup_cons.mp hnd).2
    cases hl : lookupA t st.tables with
    | none =>
      obtain ⟨stf, hloop, hff, hin, hout⟩ := deleteLoop_noFail v ts st hf hndr
      refine ⟨stf, ?_, hff, ?_, ?_⟩
      · have hdel : storeDeleteEq st t v = .error "PGRST205" := by
          simp [storeDeleteEq, hl]
        simp [deleteLoop, hdel, hloop, hl]
      · intro u hu
        rcases List.mem_cons.mp hu with heq | hmem
        · subst heq
          rw [hout u hts, hl]
          rfl
        · exact hin u hmem
      · intro u hu
        exact hout u (fun hm => hu (List.mem_cons_of_mem _ hm))
    | some rows =>
      have hfc : lookupA t st.failCodes = none := by
        rw [hf]; rfl
      have hdel : storeDeleteEq st t v = .ok
          ⟨updateA t (List.filter (fun r => !(r == v))) st.tables,
           st.failCodes⟩ := by
        simp [storeDeleteEq, hl, hfc]
      set st2 : DStore := ⟨updateA t (List.filter (fun r => !(r == v)))
        st.tables, st.failCodes⟩ with hst2
      obtain ⟨stf, hloop, hff, hin, hout⟩ := deleteLoop_noFail v ts st2
        (by rw [hst2]; exact hf) hndr
      have hlabels : ts.map (fun u => if (lookupA u st2.tables).isSome
          then DelLog.cleared u else DelLog.skipped u) =
        ts.map (fun u => if (lookupA u st.tables).isSome
          then DelLog.cleared u else DelLog.skipped u) := by
        apply List.map_congr_left
        intro u hu
        have hne : u ≠ t := fun he => hts (he ▸ hu)
        rw [hst2]
        show (if (lookupA u (updateA t _ st.tables)).isSome
          then DelLog.cleared u else DelLog.skipped u) = _
        rw [lookupA_updateA_other t u _ hne st.tables]
      refine ⟨stf, ?_, hff, ?_, ?_⟩
      · rw [hlabels] at hloop
        simp [deleteLoop, hdel, hloop, hl]
      · intro u hu
        rcases List.mem_cons.mp hu with heq | hmem
        · subst heq
          rw [hout u hts, hst2]
          show lookupA u (updateA u _ st.tables) = _
          rw [lookupA_updateA_self u _ st.tables]
        · rw [hin u hmem, hst2]
          have hne : u ≠ t := fun he => hts (he ▸ hmem)
          show (lookupA u (updateA t _ st.tables)).map _ = _
          rw [lookupA_updateA_other t u _ hne st.tables]
      · intro u hu
        have hne : u ≠ t := fun he => hu (he ▸ List.mem_cons_self t ts)
        rw [hout u (fun hm => hu (List.mem_cons_of_mem _ hm)), hst2]
        show lookupA u (updateA t _ st.tables) = _
        rw [lookupA_updateA_other t u _ hne st.tables]

theorem deleteLoop_error_ne (v : String) :
    ∀ (ts : List String) (st : DStore) (c : String),
    deleteLoop v ts st = .error c → c ≠ "PGRST205"
  | [], _, _, h => by simp [deleteLoop] at h
  | t :: ts, st, c, h => by
    unfold deleteLoop at h
    split at h
    next st2 hdel =>
      split at h
      next logs stf hloop => exact absurd h (by simp)
      next c2 hloop =>
        have ihc := deleteLoop_error_ne v ts st2 c2 hloop
        simp only [Except.error.injEq] at h
        exact h ▸ ihc
    next c0 hdel =>
      split at h
      next hbe =>
        split at h
        next logs stf hloop => exact absurd h (by simp)
        next c2 hloop =>
          have ihc := deleteLoop_error_ne v ts st c2 hloop
          simp only [Except.error.injEq] at h
          exact h ▸ ihc
      next hbe =>
        simp only [Except.error.injEq] at h
        subst h
        intro he
        exact hbe (by simp [he])

/-- C2: the deletion phase walks the fixed, ordered table list and
deletes every row tagged with the version from each existing table;
a table the store reports missing (`PGRST205`) is skipped with a
notice and the remaining tables still process (so a propagated error is
never `PGRST205`); any other deletion error is re-raised and aborts the
run (shown for a failure on the first table). -/
theorem C2_delete_version_spec (st st2 : DStore) (v : String) (c : String)
    (rows : List String)
    (h : st.failCodes = [])
    (h1 : lookupA "impacts" st2.tables = some rows)
    (h2 : lookupA "impacts" st2.failCodes = some c)
    (h3 : c ≠ "PGRST205") :
    (∃ stf, delete_model_version st v = .ok
        (TARGET_TABLES.map (fun t => if (lookupA t st.tables).isSome
          then DelLog.cleared t else DelLog.skipped t), stf) ∧
      (∀ t ∈ TARGET_TABLES, lookupA t stf.tables =
        (lookupA t st.tables).map (List.filter (fun r => !(r == v)))) ∧
      (∀ t, t ∉ TARGET_TABLES → lookupA t stf.tables = lookupA t st.tables)) ∧
    (∀ (st3 : DStore) (v3 e : String),
      delete_model_version st3 v3 = .error e → e ≠ "PGRST205") ∧
    delete_model_version st2 v = .error c := by
  refine ⟨?_, ?_, ?_⟩
  · obtain ⟨stf, hloop, _, hin, hout⟩ := deleteLoop_noFail v TARGET_TABLES st h
      (by decide)
    exact ⟨stf, hloop, hin, hout⟩
  · intro st3 v3 e he
    exact deleteLoop_error_ne v3 TARGET_TABLES st3 e he
  · have hdel : storeDeleteEq st2 "impacts" v = .error c := by
      simp [storeDeleteEq, h1, h2]
    have hbe : (c == "PGRST205") = false := by
      rw [beq_eq_false_iff_ne]
      exact h3
    show deleteLoop v TARGET_TABLES st2 = .error c
    show (match storeDeleteEq st2 "impacts" v with
      | .ok stx =>
        match deleteLoop v ["c", "rho", "sector_crosswalk", "commodities_meta",
            "indicators", "model_metadata"] stx with
        | .ok (logs, stf) => Except.ok (DelLog.cleared "impacts" :: logs, stf)
        | .error c2 => Except.error c2
      | .error c2 =>
        if c2 == "PGRST205" then
          match deleteLoop v ["c", "rho", "sector_crosswalk",
              "commodities_meta", "indicators", "model_metadata"] st2 with
          | .ok (logs, stf) => Except.ok (DelLog.skipped "impacts" :: logs, stf)
          | .error c3 => Except.error c3
        else Except.error c2) = Except.error c
    rw [hdel]
    simp only [hbe, Bool.false_eq_true, if_false]

/-- A store for the missing-commodities_meta scenario: every target
table except `commodities_meta` exists. -/
def scenarioStore : DStore :=
  ⟨[("impacts", ["v2.1", "v1"]), ("c", ["v2.1"]), ("rho", ["v2.1"]),
    ("sector_crosswalk", []), ("indicators", ["v2.1", "v1"]),
    ("model_metadata", ["v2.1"])], []⟩

/-- A store whose `impacts` delete fails with a non-`PGRST205` code. -/
def failingStore : DStore :=
  ⟨[("impacts", ["v2.1"])], [("impacts", "HTTP500")]⟩

theorem C2_delete_version_witness :
    DStore.failCodes scenarioStore = [] ∧
    lookupA "impacts" (DStore.tables failingStore) = some ["v2.1"] ∧
    lookupA "impacts" (DStore.failCodes failingStore) = some "HTTP500" ∧
    ("HTTP500" : String) ≠ "PGRST205" ∧
    ((∃ stf, delete_model_version scenarioStore "v2.1" = .ok
        (TARGET_TABLES.map (fun t => if (lookupA t scenarioStore.tables).isSome
          then DelLog.cleared t else DelLog.skipped t), stf) ∧
      (∀ t ∈ TARGET_TABLES, lookupA t stf.tables =
        (lookupA t scenarioStore.tables).map
          (List.filter (fun r => !(r == "v2.1")))) ∧
      (∀ t, t ∉ TARGET_TABLES →
        lookupA t stf.tables = lookupA t scenarioStore.tables)) ∧
     (∀ (st3 : DStore) (v3 e : String),
       delete_model_version st3 v3 = .error e → e ≠ "PGRST205") ∧
     delete_model_version failingStore "v2.1" = .error "HTTP500") ∧
    TARGET_TABLES.map (fun t => if (lookupA t scenarioStore.tables).isSome
        then DelLog.cleared t else DelLog.skipped t) =
      [DelLog.cleared "impacts", DelLog.cleared "c", DelLog.cleared "rho",
       DelLog.cleared "sector_crosswalk", DelLog.skipped "commodities_meta",
       DelLog.cleared "indicators", DelLog.cleared "model_metadata"] :=
  ⟨rfl, rfl, rfl, by decide,
   C2_delete_version_spec scenarioStore failingStore "v2.1" "HTTP500" ["v2.1"]
     rfl rfl rfl (by decide),
   by decide⟩

/-! ## `insert_in_batches` and the insertion phase of `main`

`insert_in_batches` slices the records as
`for i in range(0, len(records), batch_size): records[i : i + batch_size]`
and issues one insert per slice; an error raised by the store surfaces
on the first call (no call is made for an empty record list).  In
`main`, only the `commodities_meta` step catches `APIError` with code
`PGRST205`, and only the `C` step catches ALL exceptions; the
`indicators`, `sector_crosswalk`, `rho` and both `impacts` steps have
no try/except, so ANY insert failure there — including a missing
table — propagates and aborts the run. -/

/-- `BATCH_SIZE = 2000`. -/
def BATCH_SIZE : Nat := 2000

/-- `range(0, n, bs)` for `bs > 0`. -/
def chunkStarts (n bs : Nat) : List Nat :=
  (List.range ((n + bs - 1) / bs)).map (fun i => i * bs)

/-- The consecutive slices `records[i : i + bs]`. -/
def chunksList {α : Type} (bs : Nat) (l : List α) : List (List α) :=
  (chunkStarts l.length bs).map (fun i => (l.drop i).take bs)

/-- Per-table insert behavior of the store: `none` = every insert call
succeeds, `some c` = the first insert call raises `APIError` code `c`. -/
def behFail (t0 c : String) : String → Option String :=
  fun t => if t == t0 then some c else none

/-- `insert_in_batches` from `load_useeio.py`, returning the insert
calls made (one per batch, in order). -/
def insert_in_batches {α : Type} (beh : String → Option String) (t : String)
    (records : List α) : Except String (List (String × List α)) :=
  match records with
  | [] => .ok []
  | _ :: _ =>
    match beh t with
    | some c => .error c
    | none => .ok ((chunksList BATCH_SIZE records).map (fun ch => (t, ch)))

/-- Per-table log of the insertion phase. -/
inductive LoadLog where
  | inserted (t : String) (n : Nat)
  | skippedIns (t : String)
deriving DecidableEq, Repr

/-- The `commodities_meta` step of `main`: `except APIError` with
`PGRST205` skipped, any other code re-raised. -/
def commoditiesStep {α : Type} (beh : String → Option String)
    (cm : List α) : Except String LoadLog :=
  match insert_in_batches beh "commodities_meta" cm with
  | .ok _ => .ok (.inserted "commodities_meta" cm.length)
  | .error c =>
    if c = "PGRST205" then .ok (.skippedIns "commodities_meta")
    else .error c

/-- The `C` step of `main`: `except Exception` — ANY failure skipped. -/
def cStep {α : Type} (beh : String → Option String) (cg : List α) : LoadLog :=
  match insert_in_batches beh "c" cg with
  | .ok _ => .inserted "c" cg.length
  | .error _ => .skippedIns "c"

/-- The insertion phase of `main`, over the already-computed row sets. -/
def mainInsertPhase {α : Type} (beh : String → Option String)
    (ind sc cm rho m md cg : List α) : Except String (List LoadLog) :=
  match insert_in_batches beh "indicators" ind with
  | .error c => .error c
  | .ok _ =>
  match insert_in_batches beh "sector_crosswalk" sc with
  | .error c => .error c
  | .ok _ =>
  match commoditiesStep beh cm with
  | .error c => .error c
  | .ok l3 =>
  match insert_in_batches beh "rho" rho with
  | .error c => .error c
  | .ok _ =>
  match insert_in_batches beh "impacts" m with
  | .error c => .error c
  | .ok _ =>
  match insert_in_batches beh "impacts" md with
  | .error c => .error c
  | .ok _ =>
    .ok [.inserted "indicators" ind.length,
      .inserted "sector_crosswalk" sc.length, l3,
      .inserted "rho" rho.length, .inserted "impacts" m.length,
      .inserted "impacts" md.length, cStep beh cg]

theorem chunksList_nil {α : Type} (bs : Nat) (hbs : 0 < bs) :
    chunksList bs ([] : List α) = [] := by
  unfold chunksList chunkStarts
  rw [List.length_nil, Nat.zero_add, Nat.div_eq_of_lt (by omega)]
  rfl

theorem chunkStarts_pos (n bs : Nat) (hbs : 0 < bs) (hn : 0 < n) :
    chunkStarts n bs = 0 :: (chunkStarts (n - bs) bs).map (fun i => i + bs) := by
  unfold chunkStarts
  have hk : (n + bs - 1) / bs = (n - 1) / bs + 1 := by
    have h1 : n + bs - 1 = (n - 1) + 1 * bs := by omega
    rw [h1, Nat.add_mul_div_right _ _ hbs]
  have hk2 : (n - bs + bs - 1) / bs = (n - 1) / bs := by
    rcases Nat.lt_or_ge n bs with hlt | hge
    · have h1 : n - bs = 0 := by omega
      rw [h1, Nat.zero_add, Nat.div_eq_of_lt (by omega),
        Nat.div_eq_of_lt (by omega)]
    · have h1 : n - bs + bs - 1 = n - 1 := by omega
      rw [h1]
  rw [hk, hk2, List.range_succ_eq_map]
  simp only [List.map_cons, Nat.zero_mul, List.map_map]
  refine congrArg (List.cons 0) ?_
  apply List.map_congr_left
  intro i hi
  show (i + 1) * bs = i * bs + bs
  ring

theorem chunksList_cons_eq {α : Type} (bs : Nat) (l : List α)
    (hbs : 0 < bs) (hl : l ≠ []) :
    chunksList bs l = l.take bs :: chunksList bs (l.drop bs) := by
  unfold chunksList
  have hn : 0 < l.length := List.length_pos.mpr hl
  rw [chunkStarts_pos l.length bs hbs hn]
  simp only [List.map_cons, List.drop_zero, List.map_map]
  refine congrArg (List.cons (l.take bs)) ?_
  rw [List.length_drop]
  apply List.map_congr_left
  intro i hi
  show (l.drop (i + bs)).take bs = ((l.drop bs).drop i).take bs
  rw [List.drop_drop]
  congr 2
  omega

theorem chunksList_flatten {α : Type} (bs : Nat) (hbs : 0 < bs)
    (l : List α) : (chunksList bs l).flatten = l := by
  suffices H : ∀ (n : Nat) (l : List α), l.length ≤ n →
      (chunksList bs l).flatten = l from H l.length l le_rfl
  intro n
  induction n with
  | zero =>
    intro l hl
    have : l = [] := List.length_eq_zero.mp (Nat.le_zero.mp hl)
    subst this
    rw [chunksList_nil bs hbs]
    rfl
  | succ n ih =>
    intro l hl
    cases hcl : l with
    | nil =>
      rw [chunksList_nil bs hbs]
      rfl
    | cons a rest =>
      rw [← hcl]
      have hne : l ≠ [] := by rw [hcl]; simp
      rw [chunksList_cons_eq bs l hbs hne, List.flatten_cons,
        ih (l.drop bs) (by
          rw [List.length_drop]
          have : 0 < l.length := List.length_pos.mpr hne
          omega)]
      exact List.take_append_drop bs l

theorem insert_in_batches_spec {α : Type} (beh : String → Option String)
    (t : String) (records : List α) (h : beh t = none) :
    ∃ calls, insert_in_batches beh t records = .ok calls ∧
      (calls.map Prod.snd).flatten = records ∧
      ∀ p ∈ calls, p.1 = t ∧ p.2.length ≤ BATCH_SIZE := by
  cases records with
  | nil => exact ⟨[], rfl, rfl, by simp⟩
  | cons a rest =>
    refine ⟨(chunksList BATCH_SIZE (a :: rest)).map (fun ch => (t, ch)),
      ?_, ?_, ?_⟩
    · simp [insert_in_batches, h]
    · rw [List.map_map]
      have hcomp : (Prod.snd ∘ fun ch : List α => (t, ch)) = id := rfl
      rw [hcomp, List.map_id]
      exact chunksList_flatten BATCH_SIZE (by norm_num [BATCH_SIZE]) _
    · intro p hp
      obtain ⟨ch, hch, hpe⟩ := List.mem_map.mp hp
      refine ⟨by rw [← hpe], ?_⟩
      obtain ⟨i, hi, hslice⟩ := List.mem_map.mp hch
      rw [← hpe]
      show ch.length ≤ BATCH_SIZE
      rw [← hslice]
      simp only [List.length_take]
      omega

/-- C3 (amended): every table's row set is inserted in consecutive
batches of at most `BATCH_SIZE = 2000` rows whose concatenation is the
original record sequence; but the missing-table skip applies only to
the `commodities_meta` step (where exactly code `PGRST205` is caught:
any other insert error aborts) and to the `C` step (where ANY insert
error is skipped with a notice); for the other tables — here shown on
`rho` — any insert failure, including the store reporting the table
missing, propagates and aborts the run. -/
theorem C3_insert_phase_spec {α : Type} (beh : String → Option String)
    (t : String) (records : List α) (c : String)
    (hbeh : beh t = none) (hc : c ≠ "PGRST205") :
    (∃ calls, insert_in_batches beh t records = .ok calls ∧
      (calls.map Prod.snd).flatten = records ∧
      ∀ p ∈ calls, p.1 = t ∧ p.2.length ≤ BATCH_SIZE) ∧
    mainInsertPhase (behFail "commodities_meta" c)
      [0] [0] [0] [0] [0] [0] ([0] : List ℕ) = .error c ∧
    mainInsertPhase (behFail "commodities_meta" "PGRST205")
      [0] [0] [0] [0] [0] [0] ([0] : List ℕ) =
      .ok [.inserted "indicators" 1, .inserted "sector_crosswalk" 1,
        .skippedIns "commodities_meta", .inserted "rho" 1,
        .inserted "impacts" 1, .inserted "impacts" 1, .inserted "c" 1] ∧
    mainInsertPhase (behFail "c" c) [0] [0] [0] [0] [0] [0] ([0] : List ℕ) =
      .ok [.inserted "indicators" 1, .inserted "sector_crosswalk" 1,
        .inserted "commodities_meta" 1, .inserted "rho" 1,
        .inserted "impacts" 1, .inserted "impacts" 1, .skippedIns "c"] ∧
    mainInsertPhase (behFail "rho" c) [0] [0] [0] [0] [0] [0] ([0] : List ℕ) =
      .error c := by
  refine ⟨insert_in_batches_spec beh t records hbeh, ?_, rfl, rfl, rfl⟩
  have hstep : commoditiesStep (behFail "commodities_meta" c)
      ([0] : List ℕ) = .error c := by
    show (if c = "PGRST205" then (Except.ok (LoadLog.skippedIns
      "commodities_meta") : Except String LoadLog) else .error c) = .error c
    rw [if_neg hc]
  show (match commoditiesStep (behFail "commodities_meta" c)
      ([0] : List ℕ) with
    | .error c2 => (Except.error c2 : Except String (List LoadLog))
    | .ok l3 => .ok [.inserted "indicators" 1,
        .inserted "sector_crosswalk" 1, l3, .inserted "rho" 1,
        .inserted "impacts" 1, .inserted "impacts" 1,
        cStep (behFail "commodities_meta" c) ([0] : List ℕ)]) = .error c
  rw [hstep]

/-- The store reports `rho` missing (`PGRST205`) on insert: the phase
aborts with that error instead of skipping the table, refuting the
claim's "skipped with a logged notice and the run continues". -/
theorem C3_counterexample :
    behFail "rho" "PGRST205" "rho" = some "PGRST205" ∧
    mainInsertPhase (behFail "rho" "PGRST205") [0] [0] [0] [0] [0] [0]
      ([0] : List ℕ) = .error "PGRST205" :=
  ⟨rfl, rfl⟩

theorem C3_insert_phase_witness :
    ((fun _ : String => (none : Option String)) "indicators" = none) ∧
    ("HTTP500" : String) ≠ "PGRST205" ∧
    ((∃ calls, insert_in_batches (fun _ => none) "indicators"
        ([10, 20, 30] : List ℕ) = .ok calls ∧
      (calls.map Prod.snd).flatten = [10, 20, 30] ∧
      ∀ p ∈ calls, p.1 = "indicators" ∧ p.2.length ≤ BATCH_SIZE) ∧
     mainInsertPhase (behFail "commodities_meta" "HTTP500")
       [0] [0] [0] [0] [0] [0] ([0] : List ℕ) = .error "HTTP500" ∧
     mainInsertPhase (behFail "commodities_meta" "PGRST205")
       [0] [0] [0] [0] [0] [0] ([0] : List ℕ) =
       .ok [.inserted "indicators" 1, .inserted "sector_crosswalk" 1,
         .skippedIns "commodities_meta", .inserted "rho" 1,
         .inserted "impacts" 1, .inserted "impacts" 1, .inserted "c" 1] ∧
     mainInsertPhase (behFail "c" "HTTP500") [0] [0] [0] [0] [0] [0]
       ([0] : List ℕ) =
       .ok [.inserted "indicators" 1, .inserted "sector_crosswalk" 1,
         .inserted "commodities_meta" 1, .inserted "rho" 1,
         .inserted "impacts" 1, .inserted "impacts" 1, .skippedIns "c"] ∧
     mainInsertPhase (behFail "rho" "HTTP500") [0] [0] [0] [0] [0] [0]
       ([0] : List ℕ) = .error "HTTP500") ∧
    insert_in_batches (fun _ => none) "indicators" ([10, 20, 30] : List ℕ) =
      .ok [("indicators", [10, 20, 30])] :=
  ⟨rfl, by decide,
   C3_insert_phase_spec (fun _ => none) "indicators" [10, 20, 30] "HTTP500"
     rfl (by decide),
   rfl⟩
